import Mathlib

/-!
Verification of the 3D linear-elastic frame analysis engine consumed by
src/example.py (PyNite's FEModel3D).  The engine itself is not part of the
repository's sources, so the definitions below are modelled from the
specification (spec.md): a direct-stiffness-method solver over exact rational
arithmetic, with the registry, assembler, load/combination engine, solver,
diagram generator and statics checker of spec sections 4.1-4.7.  The consumer
script src/example.py is embedded verbatim as the concrete model it builds.
-/

set_option maxHeartbeats 1600000
set_option linter.unreachableTactic false
set_option linter.unusedTactic false
set_option linter.unnecessarySeqFocus false

/-- A 3-component vector of exact rationals (global or member-local frame). -/
@[ext]
structure V3 where
  x : ℚ
  y : ℚ
  z : ℚ
deriving DecidableEq, Repr

instance : Zero V3 := ⟨⟨0, 0, 0⟩⟩
instance : Add V3 := ⟨fun a b => ⟨a.x + b.x, a.y + b.y, a.z + b.z⟩⟩
instance : Neg V3 := ⟨fun a => ⟨-a.x, -a.y, -a.z⟩⟩
instance : Sub V3 := ⟨fun a b => ⟨a.x - b.x, a.y - b.y, a.z - b.z⟩⟩
instance : SMul ℚ V3 := ⟨fun c a => ⟨c * a.x, c * a.y, c * a.z⟩⟩

@[simp] lemma V3.zero_x : (0 : V3).x = 0 := rfl
@[simp] lemma V3.zero_y : (0 : V3).y = 0 := rfl
@[simp] lemma V3.zero_z : (0 : V3).z = 0 := rfl
@[simp] lemma V3.add_x (a b : V3) : (a + b).x = a.x + b.x := rfl
@[simp] lemma V3.add_y (a b : V3) : (a + b).y = a.y + b.y := rfl
@[simp] lemma V3.add_z (a b : V3) : (a + b).z = a.z + b.z := rfl
@[simp] lemma V3.neg_x (a : V3) : (-a).x = -a.x := rfl
@[simp] lemma V3.neg_y (a : V3) : (-a).y = -a.y := rfl
@[simp] lemma V3.neg_z (a : V3) : (-a).z = -a.z := rfl
@[simp] lemma V3.sub_x (a b : V3) : (a - b).x = a.x - b.x := rfl
@[simp] lemma V3.sub_y (a b : V3) : (a - b).y = a.y - b.y := rfl
@[simp] lemma V3.sub_z (a b : V3) : (a - b).z = a.z - b.z := rfl
@[simp] lemma V3.smul_x (c : ℚ) (a : V3) : (c • a).x = c * a.x := rfl
@[simp] lemma V3.smul_y (c : ℚ) (a : V3) : (c • a).y = c * a.y := rfl
@[simp] lemma V3.smul_z (c : ℚ) (a : V3) : (c • a).z = c * a.z := rfl

/-- Euclidean dot product on `V3`. -/
def dot3 (a b : V3) : ℚ := a.x * b.x + a.y * b.y + a.z * b.z

/-- Cross product on `V3`. -/
def cross (a b : V3) : V3 :=
  ⟨a.y * b.z - a.z * b.y, a.z * b.x - a.x * b.z, a.x * b.y - a.y * b.x⟩

/-- A 3x3 matrix of rationals, row-major entries. -/
@[ext]
structure M3 where
  a11 : ℚ
  a12 : ℚ
  a13 : ℚ
  a21 : ℚ
  a22 : ℚ
  a23 : ℚ
  a31 : ℚ
  a32 : ℚ
  a33 : ℚ
deriving DecidableEq, Repr

/-- Identity 3x3 matrix. -/
def M3.one : M3 := ⟨1, 0, 0, 0, 1, 0, 0, 0, 1⟩

/-- Matrix-vector product. -/
def M3.mulVec (m : M3) (v : V3) : V3 :=
  ⟨m.a11 * v.x + m.a12 * v.y + m.a13 * v.z,
   m.a21 * v.x + m.a22 * v.y + m.a23 * v.z,
   m.a31 * v.x + m.a32 * v.y + m.a33 * v.z⟩

/-- Matrix transpose. -/
def M3.transpose (m : M3) : M3 :=
  ⟨m.a11, m.a21, m.a31, m.a12, m.a22, m.a32, m.a13, m.a23, m.a33⟩

/-- Matrix-matrix product. -/
def M3.mmul (m n : M3) : M3 :=
  ⟨m.a11 * n.a11 + m.a12 * n.a21 + m.a13 * n.a31,
   m.a11 * n.a12 + m.a12 * n.a22 + m.a13 * n.a32,
   m.a11 * n.a13 + m.a12 * n.a23 + m.a13 * n.a33,
   m.a21 * n.a11 + m.a22 * n.a21 + m.a23 * n.a31,
   m.a21 * n.a12 + m.a22 * n.a22 + m.a23 * n.a32,
   m.a21 * n.a13 + m.a22 * n.a23 + m.a23 * n.a33,
   m.a31 * n.a11 + m.a32 * n.a21 + m.a33 * n.a31,
   m.a31 * n.a12 + m.a32 * n.a22 + m.a33 * n.a32,
   m.a31 * n.a13 + m.a32 * n.a23 + m.a33 * n.a33⟩

/-- Determinant of a 3x3 matrix. -/
def M3.det (m : M3) : ℚ :=
  m.a11 * (m.a22 * m.a33 - m.a23 * m.a32)
  - m.a12 * (m.a21 * m.a33 - m.a23 * m.a31)
  + m.a13 * (m.a21 * m.a32 - m.a22 * m.a31)

/-- Cofactor matrix (transpose of the adjugate). -/
def M3.cof (m : M3) : M3 :=
  ⟨m.a22 * m.a33 - m.a23 * m.a32,
   m.a23 * m.a31 - m.a21 * m.a33,
   m.a21 * m.a32 - m.a22 * m.a31,
   m.a13 * m.a32 - m.a12 * m.a33,
   m.a11 * m.a33 - m.a13 * m.a31,
   m.a12 * m.a31 - m.a11 * m.a32,
   m.a12 * m.a23 - m.a13 * m.a22,
   m.a13 * m.a21 - m.a11 * m.a23,
   m.a11 * m.a22 - m.a12 * m.a21⟩

lemma M3.mmul_assoc (a b c : M3) : (a.mmul b).mmul c = a.mmul (b.mmul c) := by
  ext <;> simp [M3.mmul] <;> ring

@[simp] lemma M3.one_mmul (a : M3) : M3.one.mmul a = a := by
  ext <;> simp [M3.mmul, M3.one]

@[simp] lemma M3.mmul_one (a : M3) : a.mmul M3.one = a := by
  ext <;> simp [M3.mmul, M3.one]

lemma M3.transpose_transpose (a : M3) : a.transpose.transpose = a := rfl

/-- `M · cofᵀ(M) = det M · 1` (Laplace expansion), as a pure ring identity. -/
lemma M3.mmul_cof_transpose (m : M3) :
    m.mmul m.cof.transpose =
      ⟨m.det, 0, 0, 0, m.det, 0, 0, 0, m.det⟩ := by
  ext <;> simp [M3.mmul, M3.cof, M3.transpose, M3.det] <;> ring

/-- A rotation matrix (orthogonal with determinant one) equals its own
cofactor matrix. -/
lemma M3.cof_eq_self_of_so3 (m : M3)
    (horth : m.transpose.mmul m = M3.one) (hdet : m.det = 1) :
    m.cof = m := by
  have hright : m.mmul m.cof.transpose = M3.one := by
    rw [M3.mmul_cof_transpose, hdet]; rfl
  have h1 : m.transpose.mmul (m.mmul m.cof.transpose) = m.transpose := by
    rw [hright, M3.mmul_one]
  rw [← M3.mmul_assoc, horth, M3.one_mmul] at h1
  have h2 := congrArg M3.transpose h1
  rw [M3.transpose_transpose, M3.transpose_transpose] at h2
  exact h2

/-- Cross products transform by the cofactor matrix: a pure ring identity. -/
lemma M3.mulVec_cross (m : M3) (a b : V3) :
    cross (m.mulVec a) (m.mulVec b) = m.cof.mulVec (cross a b) := by
  ext <;> simp [cross, M3.mulVec, M3.cof] <;> ring

/-- For a rotation matrix, `R(a × b) = (Ra) × (Rb)`. -/
lemma M3.mulVec_cross_so3 (m : M3)
    (horth : m.transpose.mmul m = M3.one) (hdet : m.det = 1) (a b : V3) :
    m.mulVec (cross a b) = cross (m.mulVec a) (m.mulVec b) := by
  rw [M3.mulVec_cross, M3.cof_eq_self_of_so3 m horth hdet]

lemma M3.mulVec_add (m : M3) (a b : V3) :
    m.mulVec (a + b) = m.mulVec a + m.mulVec b := by
  ext <;> simp [M3.mulVec] <;> ring

lemma M3.mulVec_sub (m : M3) (a b : V3) :
    m.mulVec (a - b) = m.mulVec a - m.mulVec b := by
  ext <;> simp [M3.mulVec] <;> ring

lemma M3.mulVec_smul (m : M3) (c : ℚ) (a : V3) :
    m.mulVec (c • a) = c • m.mulVec a := by
  ext <;> simp [M3.mulVec] <;> ring

@[simp] lemma M3.mulVec_zero (m : M3) : m.mulVec 0 = 0 := by
  ext <;> simp [M3.mulVec]

/-- Transposes move across the dot product. -/
lemma dot3_transpose_mulVec (m : M3) (a b : V3) :
    dot3 (m.transpose.mulVec a) b = dot3 a (m.mulVec b) := by
  simp [dot3, M3.mulVec, M3.transpose]; ring

/-- Scalar triple product permutation used by the moment-equilibrium check. -/
lemma dot3_cross_rotate (u f c : V3) :
    dot3 (cross u f) c = dot3 f (cross c u) := by
  simp [dot3, cross]; ring

/-- Six values at one node: a translational (or force) triple and a
rotational (or moment) triple. -/
@[ext]
structure V6 where
  lin : V3
  ang : V3
deriving DecidableEq, Repr

instance : Zero V6 := ⟨⟨0, 0⟩⟩
instance : Add V6 := ⟨fun a b => ⟨a.lin + b.lin, a.ang + b.ang⟩⟩
instance : Neg V6 := ⟨fun a => ⟨-a.lin, -a.ang⟩⟩
instance : Sub V6 := ⟨fun a b => ⟨a.lin - b.lin, a.ang - b.ang⟩⟩
instance : SMul ℚ V6 := ⟨fun c a => ⟨c • a.lin, c • a.ang⟩⟩

@[simp] lemma V6.zero_lin : (0 : V6).lin = 0 := rfl
@[simp] lemma V6.zero_ang : (0 : V6).ang = 0 := rfl
@[simp] lemma V6.add_lin (a b : V6) : (a + b).lin = a.lin + b.lin := rfl
@[simp] lemma V6.add_ang (a b : V6) : (a + b).ang = a.ang + b.ang := rfl
@[simp] lemma V6.sub_lin (a b : V6) : (a - b).lin = a.lin - b.lin := rfl
@[simp] lemma V6.sub_ang (a b : V6) : (a - b).ang = a.ang - b.ang := rfl
@[simp] lemma V6.smul_lin (c : ℚ) (a : V6) : (c • a).lin = c • a.lin := rfl
@[simp] lemma V6.smul_ang (c : ℚ) (a : V6) : (c • a).ang = c • a.ang := rfl

/-- Dot product on `V6`. -/
def dot6 (a b : V6) : ℚ := dot3 a.lin b.lin + dot3 a.ang b.ang

lemma dot6_add_left (a b v : V6) : dot6 (a + b) v = dot6 a v + dot6 b v := by
  simp [dot6, dot3]; ring

@[simp] lemma dot6_zero_left (v : V6) : dot6 0 v = 0 := by
  simp [dot6, dot3]

/-- The twelve member degrees of freedom: six at the start node `p`, six at
the end node `q`. -/
@[ext]
structure V12 where
  p : V6
  q : V6
deriving DecidableEq, Repr

instance : Zero V12 := ⟨⟨0, 0⟩⟩
instance : Add V12 := ⟨fun a b => ⟨a.p + b.p, a.q + b.q⟩⟩
instance : Sub V12 := ⟨fun a b => ⟨a.p - b.p, a.q - b.q⟩⟩
instance : SMul ℚ V12 := ⟨fun c a => ⟨c • a.p, c • a.q⟩⟩

/-- Dot product on `V12`. -/
def dot12 (a b : V12) : ℚ := dot6 a.p b.p + dot6 a.q b.q

/-- Sum of a list of `V6` values. -/
def sumV6 : List V6 → V6
  | [] => 0
  | v :: l => v + sumV6 l

@[simp] lemma sumV6_nil : sumV6 [] = 0 := rfl
@[simp] lemma sumV6_cons (v : V6) (l : List V6) :
    sumV6 (v :: l) = v + sumV6 l := rfl

lemma dot6_sumV6 (l : List V6) (v : V6) :
    dot6 (sumV6 l) v = (l.map (fun w => dot6 w v)).sum := by
  induction l with
  | nil => simp
  | cons a l ih => simp [dot6_add_left, ih]

lemma sum_map_add {α : Type} (l : List α) (f g : α → ℚ) :
    (l.map (fun a => f a + g a)).sum = (l.map f).sum + (l.map g).sum := by
  induction l with
  | nil => simp
  | cons a l ih => simp [ih]; ring

lemma sum_sum_comm {α β : Type} (l1 : List α) (l2 : List β) (f : α → β → ℚ) :
    (l1.map (fun a => (l2.map (fun b => f a b)).sum)).sum
      = (l2.map (fun b => (l1.map (fun a => f a b)).sum)).sum := by
  induction l1 with
  | nil => simp
  | cons a l ih =>
      simp only [List.map_cons, List.sum_cons, ih]
      rw [← sum_map_add]

/-- Polynomials with rational coefficients, constant term first; used for the
closed-form fixed-end-force and diagram integrals of spec section 4.4/4.6. -/
abbrev QPoly : Type := List ℚ

/-- Evaluate a polynomial at `t`. -/
def peval : QPoly → ℚ → ℚ
  | [], _ => 0
  | c :: cs, t => c + t * peval cs t

/-- Add two polynomials. -/
def padd : QPoly → QPoly → QPoly
  | [], q => q
  | p, [] => p
  | c :: cs, d :: ds => (c + d) :: padd cs ds

/-- Scale a polynomial. -/
def pscale (c : ℚ) : QPoly → QPoly := List.map (fun a => c * a)

/-- Multiply two polynomials. -/
def pmul : QPoly → QPoly → QPoly
  | [], _ => []
  | c :: cs, q => padd (pscale c q) ((0 : ℚ) :: pmul cs q)

/-- Divide coefficients by successive integers starting at `n`
(helper for the antiderivative). -/
def pdivFrom : ℕ → QPoly → QPoly
  | _, [] => []
  | n, c :: cs => (c / (n : ℚ)) :: pdivFrom (n + 1) cs

/-- Antiderivative with zero constant term. -/
def pint (p : QPoly) : QPoly := (0 : ℚ) :: pdivFrom 1 p

/-- Definite integral of a polynomial from `a` to `b`. -/
def pdefInt (p : QPoly) (a b : ℚ) : ℚ := peval (pint p) b - peval (pint p) a

/-- Polynomial derivative (helper for concentrated-moment fixed-end forces). -/
def pderivFrom : ℕ → QPoly → QPoly
  | _, [] => []
  | n, c :: cs => ((n : ℚ) * c) :: pderivFrom (n + 1) cs

/-- Derivative of a polynomial. -/
def pderiv : QPoly → QPoly
  | [] => []
  | _ :: cs => pderivFrom 1 cs

/-- Hermite shape polynomial paired with the start-node translation DOF:
`(L-t)^2 (L+2t) / L^3`. -/
def shapeF1 (L : ℚ) : QPoly :=
  pscale (1 / L ^ 3) (pmul (pmul [L, -1] [L, -1]) [L, 2])

/-- Hermite shape polynomial paired with the start-node rotation DOF:
`t (L-t)^2 / L^2`. -/
def shapeM1 (L : ℚ) : QPoly :=
  pscale (1 / L ^ 2) (pmul [0, 1] (pmul [L, -1] [L, -1]))

/-- Hermite shape polynomial paired with the end-node translation DOF:
`t^2 (3L-2t) / L^3`. -/
def shapeF2 (L : ℚ) : QPoly :=
  pscale (1 / L ^ 3) (pmul (pmul [0, 1] [0, 1]) [3 * L, -2])

/-- Hermite shape polynomial paired with the end-node rotation DOF:
`-t^2 (L-t) / L^2`. -/
def shapeM2 (L : ℚ) : QPoly :=
  pscale (-(1 / L ^ 2)) (pmul (pmul [0, 1] [0, 1]) [L, -1])

/-- Member section/material parameters used by the stiffness assembler. -/
structure SecParams where
  E : ℚ
  G : ℚ
  A : ℚ
  Iy : ℚ
  Iz : ℚ
  J : ℚ
  L : ℚ
deriving DecidableEq, Repr

/-- Modelled from the spec (section 4.2, the Stiffness Assembler of the
engine absent from src/): action of the standard 12x12 local stiffness
matrix of a 3D line element on a member displacement vector.  Axial pair
`EA/L`, torsion `GJ/L`, and the `12EI/L^3, 6EI/L^2, 4EI/L, 2EI/L` bending
terms in each plane (with the usual sign reversal in the x-z plane). -/
def klAct (s : SecParams) (v : V12) : V12 :=
  let L := s.L
  let nN := s.E * s.A / L * (v.p.lin.x - v.q.lin.x)
  let tT := s.G * s.J / L * (v.p.ang.x - v.q.ang.x)
  let dy := v.p.lin.y - v.q.lin.y
  let f1y := s.E * s.Iz * (12 / L ^ 3 * dy + 6 / L ^ 2 * (v.p.ang.z + v.q.ang.z))
  let m1z := s.E * s.Iz * (6 / L ^ 2 * dy + 4 / L * v.p.ang.z + 2 / L * v.q.ang.z)
  let m2z := s.E * s.Iz * (6 / L ^ 2 * dy + 2 / L * v.p.ang.z + 4 / L * v.q.ang.z)
  let dz := v.p.lin.z - v.q.lin.z
  let f1z := s.E * s.Iy * (12 / L ^ 3 * dz - 6 / L ^ 2 * (v.p.ang.y + v.q.ang.y))
  let m1y := s.E * s.Iy * (-(6 / L ^ 2) * dz + 4 / L * v.p.ang.y + 2 / L * v.q.ang.y)
  let m2y := s.E * s.Iy * (-(6 / L ^ 2) * dz + 2 / L * v.p.ang.y + 4 / L * v.q.ang.y)
  ⟨⟨⟨nN, f1y, f1z⟩, ⟨tT, m1y, m1z⟩⟩, ⟨⟨-nN, -f1y, -f1z⟩, ⟨-tT, m2y, m2z⟩⟩⟩

/-- Block-diagonal action of the member rotation matrix on the 12 member
DOFs (spec 4.2: the 12x12 transform built from four copies of `R`). -/
def tAct (R : M3) (v : V12) : V12 :=
  ⟨⟨R.mulVec v.p.lin, R.mulVec v.p.ang⟩, ⟨R.mulVec v.q.lin, R.mulVec v.q.ang⟩⟩

/-- Action of the transpose of the member transform. -/
def tActT (R : M3) (v : V12) : V12 := tAct R.transpose v

/-- A node of the registry: unique name and 3D coordinates. -/
structure Node3D where
  name : String
  x : ℚ
  y : ℚ
  z : ℚ
deriving DecidableEq, Repr

/-- A material: name, elastic modulus E, shear modulus G, Poisson ratio,
density. -/
structure Material where
  name : String
  E : ℚ
  G : ℚ
  nu : ℚ
  rho : ℚ
deriving DecidableEq, Repr

/-- A member of the registry.  `L` and `R` are the assembler's member length
and direction-cosine rotation matrix (spec 4.2); they are registered as data
and tied to the node coordinates by `MemberOK` below, because direction
cosines of general 3D members are not closed under rational arithmetic. -/
structure Member3D where
  name : String
  i_node : String
  j_node : String
  material : String
  Iy : ℚ
  Iz : ℚ
  J : ℚ
  A : ℚ
  L : ℚ
  R : M3
deriving DecidableEq, Repr

/-- Per-node boolean restraint flags for the six DOFs (true = restrained). -/
structure Support6 where
  DX : Bool
  DY : Bool
  DZ : Bool
  RX : Bool
  RY : Bool
  RZ : Bool
deriving DecidableEq, Repr

/-- One member load: distributed (direction token, start/end magnitudes,
start/end positions) or concentrated (direction token, magnitude, position),
in the member's local frame, as in src/example.py. -/
inductive LKind where
  | dist (dir : String) (w1 w2 x1 x2 : ℚ)
  | pt (dir : String) (P x : ℚ)
deriving DecidableEq, Repr

/-- A load registered against a member under a named load case. -/
structure MemberLoad where
  member : String
  case : String
  kind : LKind
deriving DecidableEq, Repr

/-- A load combination: name plus factor mapping from case names. -/
structure LoadCombo where
  name : String
  factors : List (String × ℚ)
deriving DecidableEq, Repr

/-- Modelled from the spec (section 3, Model Registry of the engine absent
from src/): the model state built by sequential additive registration. -/
structure FEModel3D where
  nodes : List Node3D
  materials : List Material
  members : List Member3D
  supports : List (String × Support6)
  loads : List MemberLoad
  load_combos : List LoadCombo
deriving DecidableEq, Repr

/-- The empty model (`FEModel3D()` constructor). -/
def emptyModel : FEModel3D := ⟨[], [], [], [], [], []⟩

/-- Register a node. -/
def add_node (m : FEModel3D) (name : String) (x y z : ℚ) : FEModel3D :=
  { m with nodes := m.nodes ++ [⟨name, x, y, z⟩] }

/-- Register a material. -/
def add_material (m : FEModel3D) (name : String) (E G nu rho : ℚ) : FEModel3D :=
  { m with materials := m.materials ++ [⟨name, E, G, nu, rho⟩] }

/-- Register a member (geometry data `L`, `R` included, see `Member3D`). -/
def add_member (m : FEModel3D) (name i j mat : String)
    (Iy Iz J A L : ℚ) (R : M3) : FEModel3D :=
  { m with members := m.members ++ [⟨name, i, j, mat, Iy, Iz, J, A, L, R⟩] }

/-- Define the support flags of a node (latest definition wins). -/
def def_support (m : FEModel3D) (name : String) (DX DY DZ RX RY RZ : Bool) :
    FEModel3D :=
  { m with supports := (name, ⟨DX, DY, DZ, RX, RY, RZ⟩) :: m.supports }

/-- Register a distributed member load under a load case. -/
def add_member_dist_load (m : FEModel3D) (member dir : String)
    (w1 w2 x1 x2 : ℚ) (case : String) : FEModel3D :=
  { m with loads := m.loads ++ [⟨member, case, .dist dir w1 w2 x1 x2⟩] }

/-- Register a concentrated member load under a load case. -/
def add_member_pt_load (m : FEModel3D) (member dir : String)
    (P x : ℚ) (case : String) : FEModel3D :=
  { m with loads := m.loads ++ [⟨member, case, .pt dir P x⟩] }

/-- Register a load combination.  Following src/example.py line 45 (which
registers a combination whose factors reference case "S" although no load of
case "S" exists, and then analyzes and plots it), registration accepts any
factor mapping; a case with no loads contributes a zero load vector. -/
def add_load_combo (m : FEModel3D) (name : String)
    (factors : List (String × ℚ)) : FEModel3D :=
  { m with load_combos := m.load_combos ++ [⟨name, factors⟩] }

/-- Names of the registered nodes. -/
def nodeNames (m : FEModel3D) : List String := m.nodes.map Node3D.name

/-- Node lookup by name. -/
def findNode (m : FEModel3D) (p : String) : Option Node3D :=
  m.nodes.find? (fun nd => nd.name == p)

/-- Material lookup by name. -/
def findMaterial (m : FEModel3D) (p : String) : Option Material :=
  m.materials.find? (fun mat => mat.name == p)

/-- Member lookup by name. -/
def findMember (m : FEModel3D) (p : String) : Option Member3D :=
  m.members.find? (fun mem => mem.name == p)

/-- Coordinates of a node (zero for an unknown name). -/
def posOf (m : FEModel3D) (p : String) : V3 :=
  match findNode m p with
  | some nd => ⟨nd.x, nd.y, nd.z⟩
  | none => 0

/-- Support flags of a node; a node never passed to `def_support` is free in
all six DOFs. -/
def supportOf (m : FEModel3D) (p : String) : Support6 :=
  match m.supports.find? (fun s => s.1 == p) with
  | some s => s.2
  | none => ⟨false, false, false, false, false, false⟩

/-- Section/material parameters of a member (zero stiffness if the material
reference dangles; `ValidModel` excludes that case). -/
def secOf (m : FEModel3D) (mem : Member3D) : SecParams :=
  match findMaterial m mem.material with
  | some mat => ⟨mat.E, mat.G, mem.A, mem.Iy, mem.Iz, mem.J, mem.L⟩
  | none => ⟨0, 0, mem.A, mem.Iy, mem.Iz, mem.J, mem.L⟩

/-- The twelve member-end displacement components of a global displacement
state. -/
def dOf (d : String → V6) (mem : Member3D) : V12 := ⟨d mem.i_node, d mem.j_node⟩

/-- Scatter-add a member-end 12-vector into the global addressing scheme. -/
def scatter (mem : Member3D) (f : V12) : String → V6 := fun p =>
  (if p = mem.i_node then f.p else 0) + (if p = mem.j_node then f.q else 0)

/-- Global-frame member end forces produced by a displacement state:
the congruence transform `T^t Kl T` of spec 4.2 applied to the member's
twelve DOFs. -/
def memberForce (m : FEModel3D) (mem : Member3D) (d : String → V6) : V12 :=
  tActT mem.R (klAct (secOf m mem) (tAct mem.R (dOf d mem)))

/-- Modelled from the spec (section 4.2): the assembled global stiffness
operator, acting on global nodal displacement states.  This is the
matrix-free form of the global stiffness matrix: `Kop m d p` is the block of
`K·d` at node `p`. -/
def Kop (m : FEModel3D) (d : String → V6) : String → V6 := fun p =>
  sumV6 (m.members.map (fun mem => scatter mem (memberForce m mem d) p))

/-- Local equivalent nodal loads of a concentrated member load
(spec 4.4, standard fixed-end-force formulas via the Hermite shapes). -/
def eqLocalPt (L : ℚ) (dir : String) (P a : ℚ) : V12 :=
  if dir = "Fx" then
    ⟨⟨⟨P * (1 - a / L), 0, 0⟩, 0⟩, ⟨⟨P * (a / L), 0, 0⟩, 0⟩⟩
  else if dir = "Fy" then
    ⟨⟨⟨0, P * peval (shapeF1 L) a, 0⟩, ⟨0, 0, P * peval (shapeM1 L) a⟩⟩,
     ⟨⟨0, P * peval (shapeF2 L) a, 0⟩, ⟨0, 0, P * peval (shapeM2 L) a⟩⟩⟩
  else if dir = "Fz" then
    ⟨⟨⟨0, 0, P * peval (shapeF1 L) a⟩, ⟨0, -(P * peval (shapeM1 L) a), 0⟩⟩,
     ⟨⟨0, 0, P * peval (shapeF2 L) a⟩, ⟨0, -(P * peval (shapeM2 L) a), 0⟩⟩⟩
  else if dir = "Mx" then
    ⟨⟨0, ⟨P * (1 - a / L), 0, 0⟩⟩, ⟨0, ⟨P * (a / L), 0, 0⟩⟩⟩
  else if dir = "My" then
    ⟨⟨⟨0, 0, -(P * peval (pderiv (shapeF1 L)) a)⟩,
      ⟨0, P * peval (pderiv (shapeM1 L)) a, 0⟩⟩,
     ⟨⟨0, 0, -(P * peval (pderiv (shapeF2 L)) a)⟩,
      ⟨0, P * peval (pderiv (shapeM2 L)) a, 0⟩⟩⟩
  else if dir = "Mz" then
    ⟨⟨⟨0, P * peval (pderiv (shapeF1 L)) a, 0⟩,
      ⟨0, 0, P * peval (pderiv (shapeM1 L)) a⟩⟩,
     ⟨⟨0, P * peval (pderiv (shapeF2 L)) a, 0⟩,
      ⟨0, 0, P * peval (pderiv (shapeM2 L)) a⟩⟩⟩
  else 0

/-- The linear run of a distributed load as a polynomial in the member
coordinate. -/
def wPoly (w1 w2 x1 x2 : ℚ) : QPoly := [w1 - (w2 - w1) / (x2 - x1) * x1, (w2 - w1) / (x2 - x1)]

/-- Local equivalent nodal loads of a distributed member load
(spec 4.4: closed-form integrals of the load run against the Hermite
shapes over the loaded sub-span). -/
def eqLocalDist (L : ℚ) (dir : String) (w1 w2 x1 x2 : ℚ) : V12 :=
  let w := wPoly w1 w2 x1 x2
  if dir = "Fx" then
    ⟨⟨⟨pdefInt (pmul w [1, -(1 / L)]) x1 x2, 0, 0⟩, 0⟩,
     ⟨⟨pdefInt (pmul w [0, 1 / L]) x1 x2, 0, 0⟩, 0⟩⟩
  else if dir = "Fy" then
    ⟨⟨⟨0, pdefInt (pmul w (shapeF1 L)) x1 x2, 0⟩,
      ⟨0, 0, pdefInt (pmul w (shapeM1 L)) x1 x2⟩⟩,
     ⟨⟨0, pdefInt (pmul w (shapeF2 L)) x1 x2, 0⟩,
      ⟨0, 0, pdefInt (pmul w (shapeM2 L)) x1 x2⟩⟩⟩
  else if dir = "Fz" then
    ⟨⟨⟨0, 0, pdefInt (pmul w (shapeF1 L)) x1 x2⟩,
      ⟨0, -pdefInt (pmul w (shapeM1 L)) x1 x2, 0⟩⟩,
     ⟨⟨0, 0, pdefInt (pmul w (shapeF2 L)) x1 x2⟩,
      ⟨0, -pdefInt (pmul w (shapeM2 L)) x1 x2, 0⟩⟩⟩
  else 0

/-- Local equivalent nodal load vector of one member load. -/
def eqLocalLoad (L : ℚ) (k : LKind) : V12 :=
  match k with
  | .dist dir w1 w2 x1 x2 => eqLocalDist L dir w1 w2 x1 x2
  | .pt dir P a => eqLocalPt L dir P a

/-- Global nodal load vector of one registered member load: local equivalent
nodal loads, rotated to the global frame and scattered at the member's two
nodes. -/
def loadVec (m : FEModel3D) (l : MemberLoad) : String → V6 :=
  match findMember m l.member with
  | some mem => scatter mem (tActT mem.R (eqLocalLoad mem.L l.kind))
  | none => fun _ => 0

/-- Modelled from the spec (section 4.4): per-case global load vector. -/
def caseF (m : FEModel3D) (c : String) : String → V6 := fun p =>
  sumV6 ((m.loads.filter (fun l => l.case == c)).map (fun l => loadVec m l p))

/-- Modelled from the spec (section 4.4): combined load vector of a
combination, the factor-weighted sum of the referenced case vectors. -/
def comboF (m : FEModel3D) (combo : LoadCombo) : String → V6 := fun p =>
  sumV6 (combo.factors.map (fun cf => cf.2 • caseF m cf.1 p))

/-- Component `k` of a six-component block (order DX, DY, DZ, RX, RY, RZ). -/
def V6.comp (v : V6) (k : Fin 6) : ℚ :=
  match k.val with
  | 0 => v.lin.x
  | 1 => v.lin.y
  | 2 => v.lin.z
  | 3 => v.ang.x
  | 4 => v.ang.y
  | _ => v.ang.z

/-- Restraint flag of DOF `k` (order DX, DY, DZ, RX, RY, RZ). -/
def Support6.flag (s : Support6) (k : Fin 6) : Bool :=
  match k.val with
  | 0 => s.DX
  | 1 => s.DY
  | 2 => s.DZ
  | 3 => s.RX
  | 4 => s.RY
  | _ => s.RZ

/-- Residual `K·d - F` of a displacement state against a combination. -/
def Resid (m : FEModel3D) (combo : LoadCombo) (d : String → V6) :
    String → V6 := fun p => Kop m d p - comboF m combo p

/-- Modelled from the spec (sections 4.3/4.5, the partitioner and linear
solver of the engine absent from src/): `d` is the solved displacement state
of a combination when prescribed (restrained) DOFs are zero, the residual
`K·d - F` vanishes at every free DOF, and `d` is supported on the registered
nodes. -/
def Solves (m : FEModel3D) (combo : LoadCombo) (d : String → V6) : Prop :=
  (∀ p, p ∉ nodeNames m → d p = 0) ∧
  ∀ nd ∈ m.nodes, ∀ k : Fin 6,
    ((supportOf m nd.name).flag k = true → (d nd.name).comp k = 0) ∧
    ((supportOf m nd.name).flag k = false →
      (Resid m combo d nd.name).comp k = 0)

/-- Select the restrained components of a block (zero at free DOFs). -/
def selectR (s : Support6) (v : V6) : V6 :=
  ⟨⟨if s.DX then v.lin.x else 0, if s.DY then v.lin.y else 0,
    if s.DZ then v.lin.z else 0⟩,
   ⟨if s.RX then v.ang.x else 0, if s.RY then v.ang.y else 0,
    if s.RZ then v.ang.z else 0⟩⟩

/-- Modelled from the spec (section 4.5): recovered reactions, the force
imbalance `K·d - F` at the restrained DOFs. -/
def reactions (m : FEModel3D) (combo : LoadCombo) (d : String → V6) :
    String → V6 := fun p => selectR (supportOf m p) (Resid m combo d p)

/-- Externally applied nodal loads (equivalent ones included) plus recovered
reactions, the quantity summed by the statics checker (spec 4.7). -/
def totalNodal (m : FEModel3D) (combo : LoadCombo) (d : String → V6) :
    String → V6 := fun p => comboF m combo p + reactions m combo d p

/-- Modelled from the spec (section 4.7, Statics Checker): the global force
sum along axis `c` of applied loads plus reactions. -/
def sumForce (m : FEModel3D) (combo : LoadCombo) (d : String → V6)
    (c : V3) : ℚ :=
  (m.nodes.map (fun nd => dot3 (totalNodal m combo d nd.name).lin c)).sum

/-- Modelled from the spec (section 4.7, Statics Checker): the global moment
sum about axis `c` through the arbitrary reference point `ref`, of applied
loads plus reactions (forces contribute their lever-arm moments). -/
def sumMoment (m : FEModel3D) (combo : LoadCombo) (d : String → V6)
    (ref c : V3) : ℚ :=
  (m.nodes.map (fun nd =>
    dot3 (cross (posOf m nd.name - ref) (totalNodal m combo d nd.name).lin
          + (totalNodal m combo d nd.name).ang) c)).sum

/-- Well-formedness of one member against the registry (spec sections 3 and
4.2): distinct existing end nodes, positive length, a proper rotation matrix
whose first row is the member axis direction, an existing material with
positive moduli, nonnegative section properties. -/
structure MemberOK (m : FEModel3D) (mem : Member3D) : Prop where
  iMem : mem.i_node ∈ nodeNames m
  jMem : mem.j_node ∈ nodeNames m
  ne : mem.i_node ≠ mem.j_node
  Lpos : 0 < mem.L
  orth : mem.R.transpose.mmul mem.R = M3.one
  det1 : mem.R.det = 1
  axis : mem.R.mulVec (posOf m mem.j_node - posOf m mem.i_node) =
    ⟨mem.L, 0, 0⟩
  matE : ∃ mat, findMaterial m mem.material = some mat ∧ 0 < mat.E ∧ 0 < mat.G
  secA : 0 ≤ mem.A
  secIy : 0 ≤ mem.Iy
  secIz : 0 ≤ mem.Iz
  secJ : 0 ≤ mem.J

/-- Registry invariants of spec section 3: unique node names and
well-formed members. -/
structure ValidModel (m : FEModel3D) : Prop where
  nodup : (nodeNames m).Nodup
  memOK : ∀ mem ∈ m.members, MemberOK m mem

/-- Modelled from the spec (sections 4.3/4.5): the restrained system is
non-singular — the only displacement state that is zero at every restrained
DOF and load-free at every free DOF is the zero state.  Factorization of the
reduced stiffness succeeds exactly for stable models. -/
def Stable (m : FEModel3D) : Prop :=
  ∀ r : String → V6, (∀ p, p ∉ nodeNames m → r p = 0) →
    (∀ nd ∈ m.nodes, ∀ k : Fin 6,
      ((supportOf m nd.name).flag k = true → (r nd.name).comp k = 0) ∧
      ((supportOf m nd.name).flag k = false → (Kop m r nd.name).comp k = 0)) →
    r = fun _ => 0

/-- Modelled from the spec (sections 4.5/7, the analysis entry point of the
engine absent from src/): a successful analysis factorizes the restrained
stiffness (possible exactly when the model is stable) and produces, for
every defined combination, the solved displacement state; reactions, member
end forces and statics residuals are recovered from it. -/
def Analyzes (m : FEModel3D) (res : String → (String → V6)) : Prop :=
  Stable m ∧ ∀ combo ∈ m.load_combos, Solves m combo (res combo.name)

/-- Modelled from the spec (section 7): analysis raises `InstabilityError`
(during boundary-condition partitioning or factorization) exactly when the
restrained stiffness system is singular. -/
def raisesInstability (m : FEModel3D) : Prop := ¬ Stable m

/-- Sum of a list of member-end 12-vectors. -/
def sumV12 : List V12 → V12
  | [] => 0
  | v :: l => v + sumV12 l

/-- Net factor a combination applies to a load case (summed over the factor
list; spec invariant: keys unique). -/
def factorOf (combo : LoadCombo) (c : String) : ℚ :=
  ((combo.factors.filter (fun cf => cf.1 == c)).map Prod.snd).sum

/-- Combination-factored local equivalent nodal loads of all loads carried
by one member (the vector reintroduced when recovering member end forces,
spec 4.6). -/
def memberLocalEq (m : FEModel3D) (mem : Member3D) (combo : LoadCombo) : V12 :=
  sumV12 ((m.loads.filter (fun l => l.member == mem.name)).map
    (fun l => factorOf combo l.case • eqLocalLoad mem.L l.kind))

/-- Modelled from the spec (section 4.6): local-frame member end forces,
`Kl · T · d_member` minus the equivalent nodal loads used in assembly. -/
def memberLocalForces (m : FEModel3D) (mem : Member3D) (combo : LoadCombo)
    (d : String → V6) : V12 :=
  klAct (secOf m mem) (tAct mem.R (dOf d mem)) - memberLocalEq m mem combo

/-- Shear contribution of one (unfactored) member load at position `x`
(loads in the local y direction only — the Fy/Mz diagram plane). -/
def shearContribAt (k : LKind) (x : ℚ) : ℚ :=
  match k with
  | .pt dir P a => if dir = "Fy" ∧ a ≤ x then P else 0
  | .dist dir w1 w2 x1 x2 =>
      if dir = "Fy" ∧ x1 ≤ x then pdefInt (wPoly w1 w2 x1 x2) x1 (min x x2)
      else 0

/-- Moment contribution of one (unfactored) member load at position `x`:
its lever-arm moment about the cut. -/
def momentContribAt (k : LKind) (x : ℚ) : ℚ :=
  match k with
  | .pt dir P a => if dir = "Fy" ∧ a ≤ x then P * (x - a) else 0
  | .dist dir w1 w2 x1 x2 =>
      if dir = "Fy" ∧ x1 ≤ x then
        pdefInt (pmul (wPoly w1 w2 x1 x2) [x, -1]) x1 (min x x2)
      else 0

/-- Modelled from the spec (section 4.6, Diagram Generator): bending moment
about the local z axis at position `x` along the member, by superposition of
the end shear/moment and the member's own loads (sagging positive). -/
def momentAt (m : FEModel3D) (mem : Member3D) (combo : LoadCombo)
    (d : String → V6) (x : ℚ) : ℚ :=
  let f := memberLocalForces m mem combo d
  f.p.lin.y * x - f.p.ang.z
    + ((m.loads.filter (fun l => l.member == mem.name)).map
        (fun l => factorOf combo l.case * momentContribAt l.kind x)).sum

/-- Modelled from the spec (section 4.6): shear force in the local y
direction at position `x` along the member. -/
def shearAt (m : FEModel3D) (mem : Member3D) (combo : LoadCombo)
    (d : String → V6) (x : ℚ) : ℚ :=
  let f := memberLocalForces m mem combo d
  f.p.lin.y
    + ((m.loads.filter (fun l => l.member == mem.name)).map
        (fun l => factorOf combo l.case * shearContribAt l.kind x)).sum

/-- The sample positions used by the diagram arrays: `n` evenly spaced
points from `0` to `L` (numpy's linspace, as used by moment_array and
shear_array in src/example.py). -/
def samplePositions (L : ℚ) (n : ℕ) : List ℚ :=
  (List.range n).map (fun i => L * (i : ℚ) / ((n : ℚ) - 1))

/-- Modelled from the spec (sections 4.6/6, the sampled accessor used at
src/example.py lines 58-60): the Mz moment diagram of a member sampled at
`n` points, returned as (positions, values). -/
def moment_array (m : FEModel3D) (mem : Member3D) (combo : LoadCombo)
    (d : String → V6) (n : ℕ) : List ℚ × List ℚ :=
  (samplePositions mem.L n,
   (samplePositions mem.L n).map (momentAt m mem combo d))

/-- Modelled from the spec (sections 4.6/6, the sampled accessor used at
src/example.py lines 81-83): the Fy shear diagram of a member sampled at
`n` points, returned as (positions, values). -/
def shear_array (m : FEModel3D) (mem : Member3D) (combo : LoadCombo)
    (d : String → V6) (n : ℕ) : List ℚ × List ℚ :=
  (samplePositions mem.L n,
   (samplePositions mem.L n).map (shearAt m mem combo d))

/-- The model built by src/example.py lines 13-45, embedded step by step:
two nodes six meters apart, the Steel material, member M1, simple supports,
the case-D uniform load and point load, the two case-L point loads, and the
three load combinations.  The member axis is the global x axis, so its
rotation matrix is the identity and its length is 6. -/
def simple_beam : FEModel3D :=
  let m := emptyModel
  let m := add_node m "N1" 0 0 0
  let m := add_node m "N2" 6 0 0
  let m := add_material m "Steel" 210000 81000 0.3 7.85
  let m := add_member m "M1" "N1" "N2" "Steel" 1.2e-4 1.6e-4 2.7e-4 0.025 6 M3.one
  let m := def_support m "N1" true true true false false false
  let m := def_support m "N2" true true true true false false
  let m := add_member_dist_load m "M1" "Fy" (-30) (-30) 0 6 "D"
  let m := add_member_pt_load m "M1" "Fy" (-10) 3 "D"
  let m := add_member_pt_load m "M1" "Fy" 45 1.5 "L"
  let m := add_member_pt_load m "M1" "Fy" (-20) 4.5 "L"
  let m := add_load_combo m "1.4D" [("D", 1.4)]
  let m := add_load_combo m "1.2D+1.6L" [("D", 1.2), ("L", 1.6)]
  let m := add_load_combo m "1.2D+1.6L+0.5S" [("D", 0.5), ("L", 1.6), ("S", 0.5)]
  m

/-- The member M1 of the example model. -/
def memberM1 : Member3D :=
  ⟨"M1", "N1", "N2", "Steel", 1.2e-4, 1.6e-4, 2.7e-4, 0.025, 6, M3.one⟩

/-- The three combinations of the example model, as registered. -/
def combo14D : LoadCombo := ⟨"1.4D", [("D", 1.4)]⟩

/-- The governing combination of the example model. -/
def combo1216 : LoadCombo := ⟨"1.2D+1.6L", [("D", 1.2), ("L", 1.6)]⟩

/-- The combination registered at src/example.py line 45, whose factors
reference case "S" although no load of case "S" is ever defined. -/
def combo1216S : LoadCombo := ⟨"1.2D+1.6L+0.5S", [("D", 0.5), ("L", 1.6), ("S", 0.5)]⟩

instance : AddCommGroup V3 where
  add := Add.add
  zero := Zero.zero
  neg := Neg.neg
  sub := Sub.sub
  nsmul := nsmulRec
  zsmul := zsmulRec
  add_assoc a b c := by ext <;> simp <;> ring
  zero_add a := by ext <;> simp
  add_zero a := by ext <;> simp
  add_comm a b := by ext <;> simp <;> ring
  neg_add_cancel a := by ext <;> simp
  sub_eq_add_neg a b := by ext <;> simp <;> ring

instance : Module ℚ V3 where
  one_smul a := by ext <;> simp
  mul_smul c d a := by ext <;> simp <;> ring
  smul_zero c := by ext <;> simp
  smul_add c a b := by ext <;> simp <;> ring
  add_smul c d a := by ext <;> simp <;> ring
  zero_smul a := by ext <;> simp

@[simp] lemma V6.neg_lin (a : V6) : (-a).lin = -a.lin := rfl
@[simp] lemma V6.neg_ang (a : V6) : (-a).ang = -a.ang := rfl

instance : AddCommGroup V6 where
  add := Add.add
  zero := Zero.zero
  neg := Neg.neg
  sub := Sub.sub
  nsmul := nsmulRec
  zsmul := zsmulRec
  add_assoc a b c := by ext <;> simp <;> ring
  zero_add a := by ext <;> simp
  add_zero a := by ext <;> simp
  add_comm a b := by ext <;> simp <;> ring
  neg_add_cancel a := by ext <;> simp
  sub_eq_add_neg a b := by ext <;> simp <;> ring

instance : Module ℚ V6 where
  one_smul a := by ext <;> simp
  mul_smul c d a := by ext <;> simp <;> ring
  smul_zero c := by ext <;> simp
  smul_add c a b := by ext <;> simp
  add_smul c d a := by ext <;> simp <;> ring
  zero_smul a := by ext <;> simp

/-- A displacement state of the example model with only the two z rotations
nonzero (the shape of every exact solution of the example's load cases). -/
def sbDisp (t1 t2 : ℚ) : String → V6 := fun p =>
  if p = "N1" then ⟨0, ⟨0, 0, t1⟩⟩
  else if p = "N2" then ⟨0, ⟨0, 0, t2⟩⟩
  else 0

/-- The exact displacement state of the example model under combination
"1.2D+1.6L". -/
def dSol1216 : String → V6 := sbDisp (-1695 / 224) (2085 / 224)

/-- Sum of the raw applied transverse (local Fy) load of one load case:
resultants of the registered loads themselves, not equivalent nodal loads. -/
def totalCaseFy (m : FEModel3D) (c : String) : ℚ :=
  ((m.loads.filter (fun l => l.case == c)).map (fun l =>
    match l.kind with
    | .pt dir P _ => if dir = "Fy" then P else 0
    | .dist dir w1 w2 x1 x2 =>
        if dir = "Fy" then pdefInt (wPoly w1 w2 x1 x2) x1 x2 else 0)).sum

/-- A model with a single node and no restraints (spec section 8's canonical
unstable model). -/
def oneNodeModel : FEModel3D := add_node emptyModel "N1" 0 0 0

/-- A simply supported beam of span `L` along the global x axis with a
single concentrated transverse load of magnitude `P` (downward, local -y) at
midspan, under a unit combination — the closed-form scenario of spec
section 8.  Supports are the example script's: a pin at N1 and a roller at
N2 that also restrains torsion. -/
def ssBeam (L P E G A Iy Iz J : ℚ) : FEModel3D :=
  let m := emptyModel
  let m := add_node m "N1" 0 0 0
  let m := add_node m "N2" L 0 0
  let m := add_material m "Mat" E G 0.3 1
  let m := add_member m "M1" "N1" "N2" "Mat" Iy Iz J A L M3.one
  let m := def_support m "N1" true true true false false false
  let m := def_support m "N2" true true true true false false
  let m := add_member_pt_load m "M1" "Fy" (-P) (L / 2) "C"
  let m := add_load_combo m "Mid" [("C", 1)]
  m

/-- The member of `ssBeam`. -/
def ssMember (L A Iy Iz J : ℚ) : Member3D :=
  ⟨"M1", "N1", "N2", "Mat", Iy, Iz, J, A, L, M3.one⟩

/-- The unit combination of `ssBeam`. -/
def ssCombo : LoadCombo := ⟨"Mid", [("C", 1)]⟩

/-- A global rigid-translation test state: the same translation `c` at every
node, no rotations. -/
def transMode (c : V3) : String → V6 := fun _ => ⟨c, 0⟩

/-- A global rigid-rotation test state about axis `c` through the reference
point `ref`: each node translates by `c x (pos - ref)` and rotates by `c`. -/
def rotMode (m : FEModel3D) (c ref : V3) : String → V6 := fun p =>
  ⟨cross c (posOf m p - ref), c⟩

/-- The unit combination of a single load case (factor one). -/
def unitCombo (c : String) : LoadCombo := ⟨c, [(c, 1)]⟩

/-- The exact displacement state of the example model under combination
"1.4D". -/
def dSol14D : String → V6 := sbDisp (-195 / 16) (195 / 16)

/-- The exact displacement state of the example model under load case "D"
alone with unit factor. -/
def dSolD : String → V6 := sbDisp (-975 / 112) (975 / 112)

/-- The exact displacement state of the example model under combination
"1.2D+1.6L+0.5S" (case "S" has no loads and contributes nothing). -/
def dSol1216S : String → V6 := sbDisp (-165 / 112) (45 / 14)

/-- The per-combination result set of spec section 3: displacements,
reactions, member end forces (by member name) and the statics-check
residuals. -/
structure ResultSet where
  disp : String → V6
  reac : String → V6
  endForces : String → V12
  residF : V3 → ℚ
  residM : V3 → V3 → ℚ

/-- The result set recovered from a solved displacement state. -/
def resultOf (m : FEModel3D) (combo : LoadCombo) (d : String → V6) :
    ResultSet :=
  ⟨d, reactions m combo d,
   fun mn =>
     match findMember m mn with
     | some mem => memberLocalForces m mem combo d
     | none => 0,
   fun c => sumForce m combo d c,
   fun ref c => sumMoment m combo d ref c⟩

/-- The per-combination displacement results of a full analysis of the
example model. -/
def resSB : String → (String → V6) := fun cn =>
  if cn = "1.4D" then dSol14D
  else if cn = "1.2D+1.6L" then dSol1216
  else dSol1216S

instance : Neg V12 := ⟨fun a => ⟨-a.p, -a.q⟩⟩

@[simp] lemma V12.zero_p : (0 : V12).p = 0 := rfl
@[simp] lemma V12.zero_q : (0 : V12).q = 0 := rfl
@[simp] lemma V12.add_p (a b : V12) : (a + b).p = a.p + b.p := rfl
@[simp] lemma V12.add_q (a b : V12) : (a + b).q = a.q + b.q := rfl
@[simp] lemma V12.sub_p (a b : V12) : (a - b).p = a.p - b.p := rfl
@[simp] lemma V12.sub_q (a b : V12) : (a - b).q = a.q - b.q := rfl
@[simp] lemma V12.neg_p (a : V12) : (-a).p = -a.p := rfl
@[simp] lemma V12.neg_q (a : V12) : (-a).q = -a.q := rfl
@[simp] lemma V12.smul_p (c : ℚ) (a : V12) : (c • a).p = c • a.p := rfl
@[simp] lemma V12.smul_q (c : ℚ) (a : V12) : (c • a).q = c • a.q := rfl

/-- The inner product of two global nodal states over the registered nodes
(the pairing in which the global stiffness operator is symmetric). -/
def innerS (m : FEModel3D) (u v : String → V6) : ℚ :=
  (m.nodes.map (fun nd => dot6 (u nd.name) (v nd.name))).sum

lemma dot6_comm (a b : V6) : dot6 a b = dot6 b a := by
  simp [dot6, dot3]; ring

lemma dot12_comm (a b : V12) : dot12 a b = dot12 b a := by
  simp [dot12, dot6, dot3]; ring

lemma dot6_if (c : Prop) [Decidable c] (w v : V6) :
    dot6 (if c then w else 0) v = if c then dot6 w v else 0 := by
  split_ifs <;> simp

lemma sumV6_append (l1 l2 : List V6) :
    sumV6 (l1 ++ l2) = sumV6 l1 + sumV6 l2 := by
  induction l1 with
  | nil => simp
  | cons a l ih => simp [ih, add_assoc]

/-- Sum of an all-absent scatter term vanishes. -/
lemma sum_if_name_not_mem (nodes : List Node3D) (i : String)
    (hi : i ∉ nodes.map Node3D.name) (g : String → ℚ) :
    (nodes.map (fun nd => if nd.name = i then g nd.name else 0)).sum = 0 := by
  induction nodes with
  | nil => simp
  | cons nd l ih =>
      simp only [List.map_cons, List.mem_cons, not_or] at hi
      have hne : nd.name ≠ i := fun h => hi.1 h.symm
      simp [List.map_cons, List.sum_cons, hne, ih hi.2]

/-- With unique node names, a scatter term contributes exactly once. -/
lemma sum_if_name_mem (nodes : List Node3D)
    (hnodup : (nodes.map Node3D.name).Nodup) (i : String)
    (hi : i ∈ nodes.map Node3D.name) (g : String → ℚ) :
    (nodes.map (fun nd => if nd.name = i then g nd.name else 0)).sum = g i := by
  induction nodes with
  | nil => simp at hi
  | cons nd l ih =>
      simp only [List.map_cons, List.nodup_cons] at hnodup
      rcases hnodup with ⟨hnd, hl⟩
      by_cases h : nd.name = i
      · subst h
        simp [List.map_cons, List.sum_cons,
          sum_if_name_not_mem l nd.name hnd g]
      · simp only [List.map_cons, List.mem_cons] at hi
        rcases hi with hi | hi
        · exact absurd hi.symm h
        · simp [List.map_cons, List.sum_cons, h, ih hl hi]

/-- Scatter-inner identity: pairing a scattered member 12-vector against a
global state restricts the state to the member's two end nodes. -/
lemma sum_scatter_dot (nodes : List Node3D)
    (hnodup : (nodes.map Node3D.name).Nodup) (mem : Member3D)
    (hi : mem.i_node ∈ nodes.map Node3D.name)
    (hj : mem.j_node ∈ nodes.map Node3D.name)
    (f : V12) (v : String → V6) :
    (nodes.map (fun nd => dot6 (scatter mem f nd.name) (v nd.name))).sum
      = dot12 f ⟨v mem.i_node, v mem.j_node⟩ := by
  have h1 : ∀ nd : Node3D,
      dot6 (scatter mem f nd.name) (v nd.name)
        = (if nd.name = mem.i_node then dot6 f.p (v nd.name) else 0)
          + (if nd.name = mem.j_node then dot6 f.q (v nd.name) else 0) := by
    intro nd
    simp [scatter, dot6_add_left, dot6_if]
  simp only [h1]
  rw [sum_map_add]
  rw [sum_if_name_mem nodes hnodup mem.i_node hi
      (fun s => dot6 f.p (v s)),
    sum_if_name_mem nodes hnodup mem.j_node hj
      (fun s => dot6 f.q (v s))]
  rfl

/-- The inner product against `K·d` decomposes into member-level pairings. -/
lemma innerS_Kop (m : FEModel3D) (hv : ValidModel m) (d v : String → V6) :
    innerS m (Kop m d) v
      = (m.members.map (fun mem =>
          dot12 (memberForce m mem d) ⟨v mem.i_node, v mem.j_node⟩)).sum := by
  unfold innerS Kop
  have h1 : ∀ nd : Node3D,
      dot6 (sumV6 (m.members.map
          (fun mem => scatter mem (memberForce m mem d) nd.name))) (v nd.name)
        = ((m.members.map (fun mem =>
            dot6 (scatter mem (memberForce m mem d) nd.name) (v nd.name)))).sum := by
    intro nd
    rw [dot6_sumV6, List.map_map]
    rfl
  simp only [h1]
  rw [sum_sum_comm]
  congr 1
  apply List.map_congr_left
  intro mem hmem
  exact sum_scatter_dot m.nodes hv.nodup mem (hv.memOK mem hmem).iMem
    (hv.memOK mem hmem).jMem (memberForce m mem d) v

/-- The member transform transposes across the 12-dot product. -/
lemma dot12_tActT (R : M3) (w x : V12) :
    dot12 (tActT R w) x = dot12 w (tAct R x) := by
  simp [dot12, dot6, tActT, tAct, dot3_transpose_mulVec]

/-- The local stiffness action is symmetric. -/
lemma klAct_symm (s : SecParams) (v w : V12) :
    dot12 (klAct s v) w = dot12 v (klAct s w) := by
  simp [dot12, dot6, dot3, klAct]; ring

/-- Member-level symmetry of the assembled operator. -/
lemma memberForce_symm (m : FEModel3D) (mem : Member3D) (u v : String → V6) :
    dot12 (memberForce m mem u) ⟨v mem.i_node, v mem.j_node⟩
      = dot12 ⟨u mem.i_node, u mem.j_node⟩ (memberForce m mem v) := by
  unfold memberForce dOf
  rw [dot12_tActT, klAct_symm, dot12_comm, ← dot12_tActT, dot12_comm]

/-- The strain-energy quadratic form of the local stiffness action is an
explicit sum of squares. -/
lemma klAct_quadform (s : SecParams) (hL : s.L ≠ 0) (v : V12) :
    dot12 (klAct s v) v =
      s.E * s.A / s.L * (v.p.lin.x - v.q.lin.x) ^ 2
      + s.G * s.J / s.L * (v.p.ang.x - v.q.ang.x) ^ 2
      + s.E * s.Iz / s.L ^ 3 *
          (3 * (2 * (v.p.lin.y - v.q.lin.y)
                + s.L * (v.p.ang.z + v.q.ang.z)) ^ 2
           + s.L ^ 2 * (v.p.ang.z - v.q.ang.z) ^ 2)
      + s.E * s.Iy / s.L ^ 3 *
          (3 * (2 * (v.p.lin.z - v.q.lin.z)
                - s.L * (v.p.ang.y + v.q.ang.y)) ^ 2
           + s.L ^ 2 * (v.p.ang.y - v.q.ang.y) ^ 2) := by
  simp only [dot12, dot6, dot3, klAct]
  field_simp
  ring

/-- C9: For a fixed member and sample count, the position array returned by
the moment_array and shear_array accessors equals the linspace determined by
the member's length and the sample count alone, for every combination and
displacement state; value arrays of different combinations are therefore
sampled at identical positions. -/
theorem moment_shear_positions_fixed (m1 m2 : FEModel3D) (mem : Member3D)
    (c1 c2 : LoadCombo) (d1 d2 : String → V6) (n : ℕ) :
    (moment_array m1 mem c1 d1 n).1 = samplePositions mem.L n ∧
    (shear_array m2 mem c2 d2 n).1 = samplePositions mem.L n :=
  ⟨rfl, rfl⟩

lemma caseF_append_load (m : FEModel3D) (l : MemberLoad) (c p : String) :
    caseF { m with loads := m.loads ++ [l] } c p
      = caseF m c p + (if l.case == c then loadVec m l p else 0) := by
  unfold caseF
  rw [List.filter_append, List.map_append, sumV6_append]
  have hlv : ∀ l2 : MemberLoad,
      loadVec { m with loads := m.loads ++ [l] } l2 = loadVec m l2 := by
    intro l2; rfl
  simp only [hlv]
  congr 1
  by_cases h : l.case == c
  · simp [List.filter, h]
  · simp [List.filter, h]

lemma eqLocalPt_neg (L : ℚ) (dir : String) (P a : ℚ) :
    eqLocalPt L dir (-P) a = - eqLocalPt L dir P a := by
  unfold eqLocalPt
  split_ifs <;> ext <;> simp <;> try ring

lemma tAct_neg (R : M3) (v : V12) : tAct R (-v) = -(tAct R v) := by
  ext <;> simp [tAct, M3.mulVec] <;> ring

lemma scatter_neg (mem : Member3D) (f : V12) (p : String) :
    scatter mem (-f) p = - scatter mem f p := by
  unfold scatter
  split_ifs <;> simp <;> abel

lemma caseF_add_pt (m : FEModel3D) (mem dir : String) (P x : ℚ)
    (cs c p : String) :
    caseF (add_member_pt_load m mem dir P x cs) c p
      = caseF m c p
        + (if cs == c then loadVec m ⟨mem, cs, .pt dir P x⟩ p else 0) :=
  caseF_append_load m ⟨mem, cs, .pt dir P x⟩ c p

lemma caseF_add_dist (m : FEModel3D) (mem dir : String) (w1 w2 a b : ℚ)
    (cs c p : String) :
    caseF (add_member_dist_load m mem dir w1 w2 a b cs) c p
      = caseF m c p
        + (if cs == c then loadVec m ⟨mem, cs, .dist dir w1 w2 a b⟩ p else 0) :=
  caseF_append_load m ⟨mem, cs, .dist dir w1 w2 a b⟩ c p

/-- C10: Registering several loads on the same member under the same load
case accumulates their contributions by signed summation into that case's
load vector (a distributed and a point load here, as in src/example.py's
case D): the case vector after the two registrations is the old case vector
plus each load's own contribution, and negating a magnitude negates its
contribution, so opposite-signed magnitudes under the same direction token
are both accepted and never replace or cancel an earlier registration. -/
theorem loads_accumulate_signed (m : FEModel3D) (mem dir1 dir2 : String)
    (w1 w2 a b P x : ℚ) (c p : String) :
    caseF (add_member_pt_load (add_member_dist_load m mem dir1 w1 w2 a b c)
        mem dir2 P x c) c p
      = caseF m c p + loadVec m ⟨mem, c, .dist dir1 w1 w2 a b⟩ p
          + loadVec m ⟨mem, c, .pt dir2 P x⟩ p
    ∧ loadVec m ⟨mem, c, .pt dir2 (-P) x⟩ p
        = - loadVec m ⟨mem, c, .pt dir2 P x⟩ p := by
  constructor
  · rw [caseF_add_pt, caseF_add_dist]
    have hlv : loadVec (add_member_dist_load m mem dir1 w1 w2 a b c)
        ⟨mem, c, .pt dir2 P x⟩ = loadVec m ⟨mem, c, .pt dir2 P x⟩ := rfl
    simp [hlv]
  · unfold loadVec
    cases hfm : findMember m mem with
    | none => simp
    | some mm =>
        simp only
        have h4 : eqLocalLoad mm.L (LKind.pt dir2 (-P) x)
            = - eqLocalLoad mm.L (LKind.pt dir2 P x) := by
          simp [eqLocalLoad, eqLocalPt_neg]
        rw [h4]
        have h5 : tActT mm.R (-(eqLocalLoad mm.L (LKind.pt dir2 P x)))
            = - tActT mm.R (eqLocalLoad mm.L (LKind.pt dir2 P x)) := by
          unfold tActT; exact tAct_neg mm.R.transpose _
        rw [h5, scatter_neg]

lemma innerS_comm (m : FEModel3D) (u v : String → V6) :
    innerS m u v = innerS m v u := by
  unfold innerS
  congr 1
  apply List.map_congr_left
  intro nd _
  exact dot6_comm _ _

/-- The node list of the example model, fully evaluated. -/
lemma simple_beam_nodes : simple_beam.nodes = [⟨"N1", 0, 0, 0⟩, ⟨"N2", 6, 0, 0⟩] := rfl

/-- Validity of the example model: unique node names, a proper member with
existing end nodes and material, identity rotation consistent with the node
coordinates. -/
lemma simple_beam_valid : ValidModel simple_beam := by
  refine ⟨by decide, ?_⟩
  intro mem hmem
  have hm : simple_beam.members = [memberM1] := rfl
  rw [hm] at hmem
  simp only [List.mem_singleton] at hmem
  subst hmem
  refine ⟨by decide, by decide, by decide, by norm_num [memberM1],
    by ext <;> norm_num [memberM1, M3.transpose, M3.mmul, M3.one],
    by norm_num [memberM1, M3.det, M3.one],
    by ext <;> simp [memberM1, posOf, findNode, simple_beam_nodes, M3.mulVec, M3.one],
    ?_, by norm_num [memberM1], by norm_num [memberM1],
    by norm_num [memberM1], by norm_num [memberM1]⟩
  exact ⟨⟨"Steel", 210000, 81000, 0.3, 7.85⟩, rfl, by norm_num, by norm_num⟩

/-- C8: For a valid model the assembled global stiffness operator is
symmetric in the nodal inner product and positive semi-definite, and it is
built from the registry geometry alone: registering loads or load
combinations leaves it unchanged, so the identical operator is reused for
every load combination. -/
theorem stiffness_symmetric_psd_immutable (m : FEModel3D)
    (hv : ValidModel m) :
    (∀ u v, innerS m (Kop m u) v = innerS m u (Kop m v))
    ∧ (∀ u, 0 ≤ innerS m (Kop m u) u)
    ∧ (∀ mem dir P x c,
        Kop (add_member_pt_load m mem dir P x c) = Kop m)
    ∧ (∀ mem dir w1 w2 x1 x2 c,
        Kop (add_member_dist_load m mem dir w1 w2 x1 x2 c) = Kop m)
    ∧ (∀ name factors, Kop (add_load_combo m name factors) = Kop m) := by
  refine ⟨?_, ?_, fun _ _ _ _ _ => rfl, fun _ _ _ _ _ _ _ => rfl,
    fun _ _ => rfl⟩
  · intro u v
    rw [innerS_Kop m hv u v, innerS_comm, innerS_Kop m hv v u]
    congr 1
    apply List.map_congr_left
    intro mem _
    rw [memberForce_symm, dot12_comm]
  · intro u
    rw [innerS_Kop m hv u u]
    apply List.sum_nonneg
    intro q hq
    simp only [List.mem_map] at hq
    obtain ⟨mem, hmem, hqe⟩ := hq
    subst hqe
    obtain ⟨mat, hmat, hE, hG⟩ := (hv.memOK mem hmem).matE
    have hsec : secOf m mem = ⟨mat.E, mat.G, mem.A, mem.Iy, mem.Iz, mem.J, mem.L⟩ := by
      unfold secOf
      rw [hmat]
    have hL : (secOf m mem).L ≠ 0 := by
      rw [hsec]
      exact ne_of_gt (hv.memOK mem hmem).Lpos
    have h1 : dot12 (memberForce m mem u) ⟨u mem.i_node, u mem.j_node⟩
        = dot12 (klAct (secOf m mem) (tAct mem.R (dOf u mem)))
            (tAct mem.R (dOf u mem)) := by
      unfold memberForce
      rw [dot12_tActT]
      rfl
    rw [h1, klAct_quadform (secOf m mem) hL (tAct mem.R (dOf u mem))]
    have hLpos : 0 < (secOf m mem).L := by
      rw [hsec]; exact (hv.memOK mem hmem).Lpos
    have hEn : 0 ≤ (secOf m mem).E := by rw [hsec]; exact hE.le
    have hGn : 0 ≤ (secOf m mem).G := by rw [hsec]; exact hG.le
    have hAn : 0 ≤ (secOf m mem).A := by
      rw [hsec]; exact (hv.memOK mem hmem).secA
    have hIyn : 0 ≤ (secOf m mem).Iy := by
      rw [hsec]; exact (hv.memOK mem hmem).secIy
    have hIzn : 0 ≤ (secOf m mem).Iz := by
      rw [hsec]; exact (hv.memOK mem hmem).secIz
    have hJn : 0 ≤ (secOf m mem).J := by
      rw [hsec]; exact (hv.memOK mem hmem).secJ
    set w := tAct mem.R (dOf u mem)
    have t1 : 0 ≤ (secOf m mem).E * (secOf m mem).A / (secOf m mem).L
        * (w.p.lin.x - w.q.lin.x) ^ 2 :=
      mul_nonneg (div_nonneg (mul_nonneg hEn hAn) hLpos.le) (sq_nonneg _)
    have t2 : 0 ≤ (secOf m mem).G * (secOf m mem).J / (secOf m mem).L
        * (w.p.ang.x - w.q.ang.x) ^ 2 :=
      mul_nonneg (div_nonneg (mul_nonneg hGn hJn) hLpos.le) (sq_nonneg _)
    have hz : (0:ℚ) ≤ 3 * (2 * (w.p.lin.y - w.q.lin.y)
          + (secOf m mem).L * (w.p.ang.z + w.q.ang.z)) ^ 2
        + (secOf m mem).L ^ 2 * (w.p.ang.z - w.q.ang.z) ^ 2 := by
      have := sq_nonneg (2 * (w.p.lin.y - w.q.lin.y)
          + (secOf m mem).L * (w.p.ang.z + w.q.ang.z))
      have := sq_nonneg (w.p.ang.z - w.q.ang.z)
      have := sq_nonneg (secOf m mem).L
      nlinarith
    have hy : (0:ℚ) ≤ 3 * (2 * (w.p.lin.z - w.q.lin.z)
          - (secOf m mem).L * (w.p.ang.y + w.q.ang.y)) ^ 2
        + (secOf m mem).L ^ 2 * (w.p.ang.y - w.q.ang.y) ^ 2 := by
      have := sq_nonneg (2 * (w.p.lin.z - w.q.lin.z)
          - (secOf m mem).L * (w.p.ang.y + w.q.ang.y))
      have := sq_nonneg (w.p.ang.y - w.q.ang.y)
      have := sq_nonneg (secOf m mem).L
      nlinarith
    have t3 : 0 ≤ (secOf m mem).E * (secOf m mem).Iz / (secOf m mem).L ^ 3
        * (3 * (2 * (w.p.lin.y - w.q.lin.y)
            + (secOf m mem).L * (w.p.ang.z + w.q.ang.z)) ^ 2
          + (secOf m mem).L ^ 2 * (w.p.ang.z - w.q.ang.z) ^ 2) :=
      mul_nonneg (div_nonneg (mul_nonneg hEn hIzn)
        (pow_nonneg hLpos.le 3)) hz
    have t4 : 0 ≤ (secOf m mem).E * (secOf m mem).Iy / (secOf m mem).L ^ 3
        * (3 * (2 * (w.p.lin.z - w.q.lin.z)
            - (secOf m mem).L * (w.p.ang.y + w.q.ang.y)) ^ 2
          + (secOf m mem).L ^ 2 * (w.p.ang.y - w.q.ang.y) ^ 2) :=
      mul_nonneg (div_nonneg (mul_nonneg hEn hIyn)
        (pow_nonneg hLpos.le 3)) hy
    exact add_nonneg (add_nonneg (add_nonneg t1 t2) t3) t4

/-- Witness for C8 at the example model. -/
theorem stiffness_symmetric_psd_immutable_witness :
    ValidModel simple_beam
    ∧ ((∀ u v, innerS simple_beam (Kop simple_beam u) v
          = innerS simple_beam u (Kop simple_beam v))
      ∧ (∀ u, 0 ≤ innerS simple_beam (Kop simple_beam u) u)
      ∧ (∀ mem dir P x c,
          Kop (add_member_pt_load simple_beam mem dir P x c) = Kop simple_beam)
      ∧ (∀ mem dir w1 w2 x1 x2 c,
          Kop (add_member_dist_load simple_beam mem dir w1 w2 x1 x2 c)
            = Kop simple_beam)
      ∧ (∀ name factors,
          Kop (add_load_combo simple_beam name factors) = Kop simple_beam)) :=
  ⟨simple_beam_valid, stiffness_symmetric_psd_immutable simple_beam simple_beam_valid⟩

lemma cross_add_right (a b c : V3) :
    cross a (b + c) = cross a b + cross a c := by
  ext <;> simp [cross] <;> ring

@[simp] lemma dot12_zero_right (a : V12) : dot12 a 0 = 0 := by
  simp [dot12, dot6, dot3]

lemma klAct_add (s : SecParams) (v w : V12) :
    klAct s (v + w) = klAct s v + klAct s w := by
  ext <;> simp [klAct] <;> ring

/-- The local stiffness annihilates a rigid translation of the member. -/
lemma klAct_trans_kernel (s : SecParams) (u : V3) :
    klAct s ⟨⟨u, 0⟩, ⟨u, 0⟩⟩ = 0 := by
  ext <;> simp [klAct] <;> ring

/-- The local stiffness annihilates a rigid rotation of the member about
its start node. -/
lemma klAct_rot_kernel (s : SecParams) (hL : s.L ≠ 0) (w : V3) :
    klAct s ⟨⟨0, w⟩, ⟨cross w ⟨s.L, 0, 0⟩, w⟩⟩ = 0 := by
  ext <;> simp [klAct, cross] <;> field_simp <;> first | exact Or.inr (by ring) | ring

lemma secOf_L (m : FEModel3D) (mem : Member3D) : (secOf m mem).L = mem.L := by
  unfold secOf
  cases findMaterial m mem.material <;> rfl

/-- The member transform maps the restriction of a global rigid translation
to a local rigid translation. -/
lemma tAct_transMode (mem : Member3D) (c : V3) :
    tAct mem.R (dOf (transMode c) mem)
      = ⟨⟨mem.R.mulVec c, 0⟩, ⟨mem.R.mulVec c, 0⟩⟩ := by
  ext <;> simp [tAct, dOf, transMode, M3.mulVec]

/-- The member transform maps the restriction of a global rigid rotation to
a local rigid translation plus a local rigid rotation (this uses that the
member rotation matrix is a proper rotation consistent with the member
axis). -/
lemma tAct_rotMode (m : FEModel3D) (mem : Member3D) (hok : MemberOK m mem)
    (c ref : V3) :
    tAct mem.R (dOf (rotMode m c ref) mem)
      = ⟨⟨cross (mem.R.mulVec c) (mem.R.mulVec (posOf m mem.i_node - ref)), 0⟩,
         ⟨cross (mem.R.mulVec c) (mem.R.mulVec (posOf m mem.i_node - ref)), 0⟩⟩
        + ⟨⟨0, mem.R.mulVec c⟩,
           ⟨cross (mem.R.mulVec c) ⟨mem.L, 0, 0⟩, mem.R.mulVec c⟩⟩ := by
  have hso := M3.mulVec_cross_so3 mem.R hok.orth hok.det1
  have haxis : mem.R.mulVec (posOf m mem.j_node - ref)
      = mem.R.mulVec (posOf m mem.i_node - ref) + ⟨mem.L, 0, 0⟩ := by
    rw [← hok.axis, ← M3.mulVec_add]
    congr 1
    abel
  refine V12.ext (V6.ext ?_ ?_) (V6.ext ?_ ?_)
  · show mem.R.mulVec (cross c (posOf m mem.i_node - ref)) = _
    rw [hso]
    simp
  · show mem.R.mulVec c = _
    simp
  · show mem.R.mulVec (cross c (posOf m mem.j_node - ref)) = _
    rw [hso, haxis, cross_add_right]
    simp
  · show mem.R.mulVec c = _
    simp

/-- A member pairing against any state annihilated by the transformed local
stiffness vanishes. -/
lemma memberForce_mode_zero (m : FEModel3D) (mem : Member3D)
    (d v : String → V6)
    (hker : klAct (secOf m mem) (tAct mem.R (dOf v mem)) = 0) :
    dot12 (memberForce m mem d) ⟨v mem.i_node, v mem.j_node⟩ = 0 := by
  unfold memberForce
  rw [dot12_tActT]
  have h1 : tAct mem.R ⟨v mem.i_node, v mem.j_node⟩
      = tAct mem.R (dOf v mem) := rfl
  rw [h1, klAct_symm, hker, dot12_zero_right]

/-- `K·d` is orthogonal to every rigid translation. -/
lemma innerS_Kop_transMode (m : FEModel3D) (hv : ValidModel m)
    (d : String → V6) (c : V3) :
    innerS m (Kop m d) (transMode c) = 0 := by
  rw [innerS_Kop m hv]
  apply List.sum_eq_zero
  intro q hq
  simp only [List.mem_map] at hq
  obtain ⟨mem, _, hqe⟩ := hq
  subst hqe
  apply memberForce_mode_zero
  rw [tAct_transMode]
  exact klAct_trans_kernel _ _

/-- `K·d` is orthogonal to every rigid rotation. -/
lemma innerS_Kop_rotMode (m : FEModel3D) (hv : ValidModel m)
    (d : String → V6) (c ref : V3) :
    innerS m (Kop m d) (rotMode m c ref) = 0 := by
  rw [innerS_Kop m hv]
  apply List.sum_eq_zero
  intro q hq
  simp only [List.mem_map] at hq
  obtain ⟨mem, hmem, hqe⟩ := hq
  subst hqe
  apply memberForce_mode_zero
  rw [tAct_rotMode m mem (hv.memOK mem hmem) c ref, klAct_add,
    klAct_trans_kernel]
  have hL : (secOf m mem).L ≠ 0 := by
    rw [secOf_L]
    exact ne_of_gt (hv.memOK mem hmem).Lpos
  have hk := klAct_rot_kernel (secOf m mem) hL (mem.R.mulVec c)
  rw [secOf_L] at hk
  rw [hk]
  ext <;> simp

lemma V6.eq_of_comp (a b : V6) (h : ∀ k : Fin 6, a.comp k = b.comp k) :
    a = b := by
  refine V6.ext (V3.ext ?_ ?_ ?_) (V3.ext ?_ ?_ ?_)
  · exact h 0
  · exact h 1
  · exact h 2
  · exact h 3
  · exact h 4
  · exact h 5

lemma V6.comp_add (a b : V6) (k : Fin 6) :
    (a + b).comp k = a.comp k + b.comp k := by
  fin_cases k <;> rfl

lemma V6.comp_sub (a b : V6) (k : Fin 6) :
    (a - b).comp k = a.comp k - b.comp k := by
  fin_cases k <;> rfl

lemma selectR_comp (s : Support6) (v : V6) (k : Fin 6) :
    (selectR s v).comp k = if s.flag k then v.comp k else 0 := by
  fin_cases k <;> rfl

/-- At every registered node, applied loads plus reactions of a solved
state recombine to `K·d`. -/
lemma totalNodal_eq_Kop (m : FEModel3D) (combo : LoadCombo)
    (d : String → V6) (hs : Solves m combo d) :
    ∀ nd ∈ m.nodes, totalNodal m combo d nd.name = Kop m d nd.name := by
  intro nd hnd
  apply V6.eq_of_comp
  intro k
  have hk := hs.2 nd hnd k
  have h1 : (totalNodal m combo d nd.name).comp k
      = (comboF m combo nd.name).comp k
        + (if (supportOf m nd.name).flag k
            then (Resid m combo d nd.name).comp k else 0) := by
    unfold totalNodal reactions
    rw [V6.comp_add, selectR_comp]
  rw [h1]
  by_cases hflag : (supportOf m nd.name).flag k
  · simp only [hflag, if_true]
    have h2 : (Resid m combo d nd.name).comp k
        = (Kop m d nd.name).comp k - (comboF m combo nd.name).comp k := by
      unfold Resid
      rw [V6.comp_sub]
    rw [h2]
    ring
  · have hflag2 : (supportOf m nd.name).flag k = false :=
      Bool.not_eq_true _ |>.mp hflag
    have h0 := hk.2 hflag2
    have h2 : (Kop m d nd.name).comp k = (comboF m combo nd.name).comp k := by
      have h3 : (Resid m combo d nd.name).comp k
          = (Kop m d nd.name).comp k - (comboF m combo nd.name).comp k := by
        unfold Resid
        rw [V6.comp_sub]
      rw [h3] at h0
      linarith
    simp [hflag, h2]

lemma innerS_congr_left (m : FEModel3D) (u u2 v : String → V6)
    (h : ∀ nd ∈ m.nodes, u nd.name = u2 nd.name) :
    innerS m u v = innerS m u2 v := by
  unfold innerS
  congr 1
  apply List.map_congr_left
  intro nd hnd
  rw [h nd hnd]

lemma dot3_zero_right (a : V3) : dot3 a 0 = 0 := by simp [dot3]

lemma dot3_add_left (a b c : V3) : dot3 (a + b) c = dot3 a c + dot3 b c := by
  simp [dot3]; ring

/-- The force sum of the statics checker is the pairing with a rigid
translation. -/
lemma sumForce_eq_inner (m : FEModel3D) (combo : LoadCombo)
    (d : String → V6) (c : V3) :
    sumForce m combo d c = innerS m (totalNodal m combo d) (transMode c) := by
  unfold sumForce innerS
  congr 1
  apply List.map_congr_left
  intro nd _
  simp [dot6, transMode, dot3_zero_right]

/-- The moment sum of the statics checker is the pairing with a rigid
rotation. -/
lemma sumMoment_eq_inner (m : FEModel3D) (combo : LoadCombo)
    (d : String → V6) (ref c : V3) :
    sumMoment m combo d ref c
      = innerS m (totalNodal m combo d) (rotMode m c ref) := by
  unfold sumMoment innerS
  congr 1
  apply List.map_congr_left
  intro nd _
  simp only [dot6, rotMode, dot3_add_left]
  rw [dot3_cross_rotate]

/-- C1: For every valid model, every combination and every solved
displacement state, the six global-equilibrium sums of the statics checker —
applied nodal loads (direct plus equivalent from member loads) plus
recovered reactions, summed over the three force axes and over the three
moment axes about an arbitrary reference point — are exactly zero (over
exact rational arithmetic the residual vanishes identically, hence lies
within every tolerance proportional to the applied-load magnitude). -/
theorem statics_check_equilibrium (m : FEModel3D) (hv : ValidModel m)
    (combo : LoadCombo) (d : String → V6) (hs : Solves m combo d) :
    (∀ c : V3, sumForce m combo d c = 0)
    ∧ (∀ ref c : V3, sumMoment m combo d ref c = 0) := by
  have htot := totalNodal_eq_Kop m combo d hs
  constructor
  · intro c
    rw [sumForce_eq_inner, innerS_congr_left m _ _ _ htot]
    exact innerS_Kop_transMode m hv d c
  · intro ref c
    rw [sumMoment_eq_inner, innerS_congr_left m _ _ _ htot]
    exact innerS_Kop_rotMode m hv d c ref

lemma sb_support_N1 :
    supportOf simple_beam "N1" = ⟨true, true, true, false, false, false⟩ := rfl

lemma sb_support_N2 :
    supportOf simple_beam "N2" = ⟨true, true, true, true, false, false⟩ := rfl

/-- Assembling a solution of the example model from the two nodal residual
evaluations. -/
lemma sb_solves_of (combo : LoadCombo) (t1 t2 r1 r2 : ℚ)
    (hres1 : Resid simple_beam combo (sbDisp t1 t2) "N1" = ⟨⟨0, r1, 0⟩, 0⟩)
    (hres2 : Resid simple_beam combo (sbDisp t1 t2) "N2" = ⟨⟨0, r2, 0⟩, 0⟩) :
    Solves simple_beam combo (sbDisp t1 t2) := by
  constructor
  · intro p hp
    simp only [nodeNames, simple_beam_nodes, List.map_cons, List.map_nil,
      List.mem_cons, List.not_mem_nil, or_false, not_or] at hp
    simp [sbDisp, hp.1, hp.2]
  · intro nd hnd
    rw [simple_beam_nodes] at hnd
    fin_cases hnd <;> intro k <;> fin_cases k <;>
      refine ⟨fun hf => ?_, fun hf => ?_⟩ <;>
      first
        | rfl
        | (show (Resid simple_beam combo (sbDisp t1 t2) "N1").comp _ = 0
           rw [hres1]; rfl)
        | (show (Resid simple_beam combo (sbDisp t1 t2) "N2").comp _ = 0
           rw [hres2]; rfl)
        | (simp [sb_support_N1, sb_support_N2, Support6.flag] at hf)

lemma caseF_D_N1 : caseF simple_beam "D" "N1"
    = ⟨⟨0, -95, 0⟩, ⟨0, 0, -195 / 2⟩⟩ := by
  norm_num [caseF, loadVec, findMember, simple_beam, emptyModel, add_node,
    add_material, add_member, def_support, add_member_dist_load,
    add_member_pt_load, add_load_combo, scatter, sumV6, eqLocalLoad,
    eqLocalPt, eqLocalDist, wPoly, shapeF1, shapeM1, shapeF2, shapeM2, pmul,
    padd, pscale, pdefInt, pint, pdivFrom, peval, tActT, tAct,
    M3.mulVec, M3.one, M3.transpose, memberM1, List.filter,
    show ("N2" : String) ≠ "N1" from by decide,
    show ("N1" : String) ≠ "N2" from by decide,
    show ("Fy" : String) ≠ "Fx" from by decide]
  all_goals (ext <;> norm_num)

lemma caseF_D_N2 : caseF simple_beam "D" "N2"
    = ⟨⟨0, -95, 0⟩, ⟨0, 0, 195 / 2⟩⟩ := by
  norm_num [caseF, loadVec, findMember, simple_beam, emptyModel, add_node,
    add_material, add_member, def_support, add_member_dist_load,
    add_member_pt_load, add_load_combo, scatter, sumV6, eqLocalLoad,
    eqLocalPt, eqLocalDist, wPoly, shapeF1, shapeM1, shapeF2, shapeM2, pmul,
    padd, pscale, pdefInt, pint, pdivFrom, peval, tActT, tAct,
    M3.mulVec, M3.one, M3.transpose, memberM1, List.filter,
    show ("N2" : String) ≠ "N1" from by decide,
    show ("N1" : String) ≠ "N2" from by decide,
    show ("Fy" : String) ≠ "Fx" from by decide]
  all_goals (ext <;> norm_num)

lemma caseF_L_N1 : caseF simple_beam "L" "N1"
    = ⟨⟨0, 1115 / 32, 0⟩, ⟨0, 0, 1035 / 32⟩⟩ := by
  norm_num [caseF, loadVec, findMember, simple_beam, emptyModel, add_node,
    add_material, add_member, def_support, add_member_dist_load,
    add_member_pt_load, add_load_combo, scatter, sumV6, eqLocalLoad,
    eqLocalPt, eqLocalDist, wPoly, shapeF1, shapeM1, shapeF2, shapeM2, pmul,
    padd, pscale, pdefInt, pint, pdivFrom, peval, tActT, tAct,
    M3.mulVec, M3.one, M3.transpose, memberM1, List.filter,
    show ("N2" : String) ≠ "N1" from by decide,
    show ("N1" : String) ≠ "N2" from by decide,
    show ("Fy" : String) ≠ "Fx" from by decide]
  all_goals (ext <;> norm_num)

lemma caseF_L_N2 : caseF simple_beam "L" "N2"
    = ⟨⟨0, -315 / 32, 0⟩, ⟨0, 0, 135 / 32⟩⟩ := by
  norm_num [caseF, loadVec, findMember, simple_beam, emptyModel, add_node,
    add_material, add_member, def_support, add_member_dist_load,
    add_member_pt_load, add_load_combo, scatter, sumV6, eqLocalLoad,
    eqLocalPt, eqLocalDist, wPoly, shapeF1, shapeM1, shapeF2, shapeM2, pmul,
    padd, pscale, pdefInt, pint, pdivFrom, peval, tActT, tAct,
    M3.mulVec, M3.one, M3.transpose, memberM1, List.filter,
    show ("N2" : String) ≠ "N1" from by decide,
    show ("N1" : String) ≠ "N2" from by decide,
    show ("Fy" : String) ≠ "Fx" from by decide]
  all_goals (ext <;> norm_num)

lemma caseF_S_zero (p : String) : caseF simple_beam "S" p = 0 := by
  have hf : simple_beam.loads.filter (fun l => l.case == "S") = [] := rfl
  simp [caseF, hf]

lemma Kop_sbDisp_N1 (t1 t2 : ℚ) : Kop simple_beam (sbDisp t1 t2) "N1"
    = ⟨⟨0, 28 / 5 * (t1 + t2), 0⟩, ⟨0, 0, 112 / 5 * t1 + 56 / 5 * t2⟩⟩ := by
  ext <;> norm_num [Kop, memberForce, findMaterial, simple_beam, emptyModel,
    add_node, add_material, add_member, def_support, add_member_dist_load,
    add_member_pt_load, add_load_combo, secOf, dOf, tAct, tActT, klAct,
    scatter, sumV6, sbDisp, M3.mulVec, M3.one, M3.transpose, memberM1,
    show ("N2" : String) ≠ "N1" from by decide,
    show ("N1" : String) ≠ "N2" from by decide] <;> ring

lemma Kop_sbDisp_N2 (t1 t2 : ℚ) : Kop simple_beam (sbDisp t1 t2) "N2"
    = ⟨⟨0, -(28 / 5) * (t1 + t2), 0⟩, ⟨0, 0, 56 / 5 * t1 + 112 / 5 * t2⟩⟩ := by
  ext <;> norm_num [Kop, memberForce, findMaterial, simple_beam, emptyModel,
    add_node, add_material, add_member, def_support, add_member_dist_load,
    add_member_pt_load, add_load_combo, secOf, dOf, tAct, tActT, klAct,
    scatter, sumV6, sbDisp, M3.mulVec, M3.one, M3.transpose, memberM1,
    show ("N2" : String) ≠ "N1" from by decide,
    show ("N1" : String) ≠ "N2" from by decide] <;> ring

lemma sb_resid_1216_N1 :
    Resid simple_beam combo1216 (sbDisp (-1695 / 224) (2085 / 224)) "N1"
      = ⟨⟨0, 68, 0⟩, 0⟩ := by
  have h : Resid simple_beam combo1216 (sbDisp (-1695 / 224) (2085 / 224)) "N1"
      = Kop simple_beam (sbDisp (-1695 / 224) (2085 / 224)) "N1"
        - comboF simple_beam combo1216 "N1" := rfl
  rw [h, Kop_sbDisp_N1]
  norm_num [comboF, combo1216, sumV6, caseF_D_N1, caseF_L_N1, caseF_S_zero]
  all_goals (ext <;> norm_num)

lemma sb_resid_1216_N2 :
    Resid simple_beam combo1216 (sbDisp (-1695 / 224) (2085 / 224)) "N2"
      = ⟨⟨0, 120, 0⟩, 0⟩ := by
  have h : Resid simple_beam combo1216 (sbDisp (-1695 / 224) (2085 / 224)) "N2"
      = Kop simple_beam (sbDisp (-1695 / 224) (2085 / 224)) "N2"
        - comboF simple_beam combo1216 "N2" := rfl
  rw [h, Kop_sbDisp_N2]
  norm_num [comboF, combo1216, sumV6, caseF_D_N2, caseF_L_N2, caseF_S_zero]
  all_goals (ext <;> norm_num)

lemma sb_solves_1216 :
    Solves simple_beam combo1216 (sbDisp (-1695 / 224) (2085 / 224)) :=
  sb_solves_of combo1216 (-1695 / 224) (2085 / 224) 68 120 sb_resid_1216_N1 sb_resid_1216_N2

lemma sb_resid_14D_N1 :
    Resid simple_beam combo14D (sbDisp (-195 / 16) (195 / 16)) "N1"
      = ⟨⟨0, 133, 0⟩, 0⟩ := by
  have h : Resid simple_beam combo14D (sbDisp (-195 / 16) (195 / 16)) "N1"
      = Kop simple_beam (sbDisp (-195 / 16) (195 / 16)) "N1"
        - comboF simple_beam combo14D "N1" := rfl
  rw [h, Kop_sbDisp_N1]
  norm_num [comboF, combo14D, sumV6, caseF_D_N1, caseF_L_N1, caseF_S_zero]
  all_goals (ext <;> norm_num)

lemma sb_resid_14D_N2 :
    Resid simple_beam combo14D (sbDisp (-195 / 16) (195 / 16)) "N2"
      = ⟨⟨0, 133, 0⟩, 0⟩ := by
  have h : Resid simple_beam combo14D (sbDisp (-195 / 16) (195 / 16)) "N2"
      = Kop simple_beam (sbDisp (-195 / 16) (195 / 16)) "N2"
        - comboF simple_beam combo14D "N2" := rfl
  rw [h, Kop_sbDisp_N2]
  norm_num [comboF, combo14D, sumV6, caseF_D_N2, caseF_L_N2, caseF_S_zero]
  all_goals (ext <;> norm_num)

lemma sb_solves_14D :
    Solves simple_beam combo14D (sbDisp (-195 / 16) (195 / 16)) :=
  sb_solves_of combo14D (-195 / 16) (195 / 16) 133 133 sb_resid_14D_N1 sb_resid_14D_N2

lemma sb_resid_D_N1 :
    Resid simple_beam (unitCombo "D") (sbDisp (-975 / 112) (975 / 112)) "N1"
      = ⟨⟨0, 95, 0⟩, 0⟩ := by
  have h : Resid simple_beam (unitCombo "D") (sbDisp (-975 / 112) (975 / 112)) "N1"
      = Kop simple_beam (sbDisp (-975 / 112) (975 / 112)) "N1"
        - comboF simple_beam (unitCombo "D") "N1" := rfl
  rw [h, Kop_sbDisp_N1]
  norm_num [comboF, unitCombo, sumV6, caseF_D_N1, caseF_L_N1, caseF_S_zero]
  all_goals (ext <;> norm_num)

lemma sb_resid_D_N2 :
    Resid simple_beam (unitCombo "D") (sbDisp (-975 / 112) (975 / 112)) "N2"
      = ⟨⟨0, 95, 0⟩, 0⟩ := by
  have h : Resid simple_beam (unitCombo "D") (sbDisp (-975 / 112) (975 / 112)) "N2"
      = Kop simple_beam (sbDisp (-975 / 112) (975 / 112)) "N2"
        - comboF simple_beam (unitCombo "D") "N2" := rfl
  rw [h, Kop_sbDisp_N2]
  norm_num [comboF, unitCombo, sumV6, caseF_D_N2, caseF_L_N2, caseF_S_zero]
  all_goals (ext <;> norm_num)

lemma sb_solves_D :
    Solves simple_beam (unitCombo "D") (sbDisp (-975 / 112) (975 / 112)) :=
  sb_solves_of (unitCombo "D") (-975 / 112) (975 / 112) 95 95 sb_resid_D_N1 sb_resid_D_N2

lemma sb_resid_1216S_N1 :
    Resid simple_beam combo1216S (sbDisp (-165 / 112) (45 / 14)) "N1"
      = ⟨⟨0, (3 / 2), 0⟩, 0⟩ := by
  have h : Resid simple_beam combo1216S (sbDisp (-165 / 112) (45 / 14)) "N1"
      = Kop simple_beam (sbDisp (-165 / 112) (45 / 14)) "N1"
        - comboF simple_beam combo1216S "N1" := rfl
  rw [h, Kop_sbDisp_N1]
  norm_num [comboF, combo1216S, sumV6, caseF_D_N1, caseF_L_N1, caseF_S_zero]
  all_goals (ext <;> norm_num)

lemma sb_resid_1216S_N2 :
    Resid simple_beam combo1216S (sbDisp (-165 / 112) (45 / 14)) "N2"
      = ⟨⟨0, (107 / 2), 0⟩, 0⟩ := by
  have h : Resid simple_beam combo1216S (sbDisp (-165 / 112) (45 / 14)) "N2"
      = Kop simple_beam (sbDisp (-165 / 112) (45 / 14)) "N2"
        - comboF simple_beam combo1216S "N2" := rfl
  rw [h, Kop_sbDisp_N2]
  norm_num [comboF, combo1216S, sumV6, caseF_D_N2, caseF_L_N2, caseF_S_zero]
  all_goals (ext <;> norm_num)

lemma sb_solves_1216S :
    Solves simple_beam combo1216S (sbDisp (-165 / 112) (45 / 14)) :=
  sb_solves_of combo1216S (-165 / 112) (45 / 14) (3 / 2) (107 / 2) sb_resid_1216S_N1 sb_resid_1216S_N2

/-- Witness for C1 at the example model's governing combination: the model
is valid, the exact displacement state solves it, and all six equilibrium
sums vanish. -/
theorem statics_check_equilibrium_witness :
    ValidModel simple_beam
    ∧ Solves simple_beam combo1216 dSol1216
    ∧ ((∀ c : V3, sumForce simple_beam combo1216 dSol1216 c = 0)
      ∧ (∀ ref c : V3, sumMoment simple_beam combo1216 dSol1216 ref c = 0)) :=
  ⟨simple_beam_valid, sb_solves_1216,
    statics_check_equilibrium simple_beam simple_beam_valid combo1216 dSol1216
      sb_solves_1216⟩

lemma tAct_add (R : M3) (v w : V12) :
    tAct R (v + w) = tAct R v + tAct R w := by
  ext <;> simp [tAct, M3.mulVec] <;> ring

lemma tAct_smul (R : M3) (c : ℚ) (v : V12) :
    tAct R (c • v) = c • tAct R v := by
  ext <;> simp [tAct, M3.mulVec] <;> ring

lemma tAct_sub (R : M3) (v w : V12) :
    tAct R (v - w) = tAct R v - tAct R w := by
  ext <;> simp [tAct, M3.mulVec] <;> ring

lemma klAct_smul (s : SecParams) (c : ℚ) (v : V12) :
    klAct s (c • v) = c • klAct s v := by
  ext <;> simp [klAct] <;> ring

lemma klAct_sub (s : SecParams) (v w : V12) :
    klAct s (v - w) = klAct s v - klAct s w := by
  ext <;> simp [klAct] <;> ring

lemma scatter_add (mem : Member3D) (f g : V12) (p : String) :
    scatter mem (f + g) p = scatter mem f p + scatter mem g p := by
  unfold scatter
  split_ifs <;> simp <;> abel

lemma scatter_smul (mem : Member3D) (c : ℚ) (f : V12) (p : String) :
    scatter mem (c • f) p = c • scatter mem f p := by
  unfold scatter
  split_ifs <;> simp

lemma scatter_sub (mem : Member3D) (f g : V12) (p : String) :
    scatter mem (f - g) p = scatter mem f p - scatter mem g p := by
  unfold scatter
  split_ifs <;> simp <;> abel

lemma memberForce_add (m : FEModel3D) (mem : Member3D) (u v : String → V6) :
    memberForce m mem (u + v) = memberForce m mem u + memberForce m mem v := by
  unfold memberForce tActT
  have h : dOf (u + v) mem = dOf u mem + dOf v mem := rfl
  rw [h, tAct_add, klAct_add, tAct_add]

lemma memberForce_smul (m : FEModel3D) (mem : Member3D) (c : ℚ)
    (u : String → V6) :
    memberForce m mem (c • u) = c • memberForce m mem u := by
  unfold memberForce tActT
  have h : dOf (c • u) mem = c • dOf u mem := rfl
  rw [h, tAct_smul, klAct_smul, tAct_smul]

lemma memberForce_sub (m : FEModel3D) (mem : Member3D) (u v : String → V6) :
    memberForce m mem (u - v) = memberForce m mem u - memberForce m mem v := by
  unfold memberForce tActT
  have h : dOf (u - v) mem = dOf u mem - dOf v mem := rfl
  rw [h, tAct_sub, klAct_sub, tAct_sub]

lemma sumV6_map_add {α : Type} (l : List α) (f g : α → V6) :
    sumV6 (l.map (fun a => f a + g a)) = sumV6 (l.map f) + sumV6 (l.map g) := by
  induction l with
  | nil => simp
  | cons a l ih => simp [ih]; abel

lemma sumV6_map_smul {α : Type} (l : List α) (c : ℚ) (f : α → V6) :
    sumV6 (l.map (fun a => c • f a)) = c • sumV6 (l.map f) := by
  induction l with
  | nil => simp
  | cons a l ih => simp [ih, smul_add]

lemma sumV6_map_sub {α : Type} (l : List α) (f g : α → V6) :
    sumV6 (l.map (fun a => f a - g a)) = sumV6 (l.map f) - sumV6 (l.map g) := by
  induction l with
  | nil => simp
  | cons a l ih => simp [ih]; abel

/-- The global stiffness operator is additive. -/
lemma Kop_add (m : FEModel3D) (u v : String → V6) :
    Kop m (u + v) = Kop m u + Kop m v := by
  funext p
  unfold Kop
  have h : ∀ mem : Member3D,
      scatter mem (memberForce m mem (u + v)) p
        = scatter mem (memberForce m mem u) p
          + scatter mem (memberForce m mem v) p := by
    intro mem
    rw [memberForce_add, scatter_add]
  simp only [h]
  exact sumV6_map_add m.members _ _

/-- The global stiffness operator is homogeneous. -/
lemma Kop_smul (m : FEModel3D) (c : ℚ) (u : String → V6) :
    Kop m (c • u) = c • Kop m u := by
  funext p
  unfold Kop
  have h : ∀ mem : Member3D,
      scatter mem (memberForce m mem (c • u)) p
        = c • scatter mem (memberForce m mem u) p := by
    intro mem
    rw [memberForce_smul, scatter_smul]
  simp only [h]
  exact sumV6_map_smul m.members c _

lemma Kop_sub (m : FEModel3D) (u v : String → V6) :
    Kop m (u - v) = Kop m u - Kop m v := by
  funext p
  unfold Kop
  have h : ∀ mem : Member3D,
      scatter mem (memberForce m mem (u - v)) p
        = scatter mem (memberForce m mem u) p
          - scatter mem (memberForce m mem v) p := by
    intro mem
    rw [memberForce_sub, scatter_sub]
  simp only [h]
  exact sumV6_map_sub m.members _ _

lemma V6.comp_zero (k : Fin 6) : (0 : V6).comp k = 0 := by
  fin_cases k <;> rfl

lemma V6.comp_smul (c : ℚ) (v : V6) (k : Fin 6) :
    (c • v).comp k = c * v.comp k := by
  fin_cases k <;> rfl

lemma V6.comp_sumV6 (l : List V6) (k : Fin 6) :
    (sumV6 l).comp k = (l.map (fun v => v.comp k)).sum := by
  induction l with
  | nil => simp [V6.comp_zero]
  | cons a l ih => simp [V6.comp_add, ih]

lemma sumV6_eq_zero (l : List V6) (h : ∀ v ∈ l, v = 0) : sumV6 l = 0 := by
  induction l with
  | nil => rfl
  | cons a l ih =>
      rw [sumV6_cons, h a (List.mem_cons_self a l),
        ih (fun v hv => h v (List.mem_cons_of_mem a hv)), add_zero]

/-- Uniqueness of solved states on a stable model. -/
lemma solves_unique (m : FEModel3D) (hst : Stable m) (combo : LoadCombo)
    (d1 d2 : String → V6) (h1 : Solves m combo d1) (h2 : Solves m combo d2) :
    d1 = d2 := by
  have hker := hst (fun p => d1 p - d2 p) ?_ ?_
  · funext p
    have hp := congrFun hker p
    simp only at hp
    exact sub_eq_zero.mp hp
  · intro p hp
    show d1 p - d2 p = 0
    rw [h1.1 p hp, h2.1 p hp, sub_self]
  · intro nd hnd k
    have hk1 := h1.2 nd hnd k
    have hk2 := h2.2 nd hnd k
    constructor
    · intro hf
      show (d1 nd.name - d2 nd.name).comp k = 0
      rw [V6.comp_sub, hk1.1 hf, hk2.1 hf, sub_self]
    · intro hf
      have hr1 := hk1.2 hf
      have hr2 := hk2.2 hf
      unfold Resid at hr1 hr2
      rw [V6.comp_sub] at hr1 hr2
      have hK : Kop m (fun p => d1 p - d2 p) = Kop m d1 - Kop m d2 :=
        Kop_sub m d1 d2
      rw [hK]
      simp only [Pi.sub_apply]
      rw [V6.comp_sub]
      linarith

/-- `comboF` of a unit combination is the case vector itself. -/
lemma comboF_unit (m : FEModel3D) (c : String) (p : String) :
    comboF m (unitCombo c) p = caseF m c p := by
  simp [comboF, unitCombo, sumV6]

/-- The stiffness operator commutes with factor-weighted sums of states. -/
lemma Kop_weighted (m : FEModel3D) (fs : List (String × ℚ))
    (ds : String → String → V6) :
    Kop m (fun p => sumV6 (fs.map (fun cf => cf.2 • ds cf.1 p)))
      = fun p => sumV6 (fs.map (fun cf => cf.2 • Kop m (ds cf.1) p)) := by
  induction fs with
  | nil =>
      simp only [List.map_nil]
      have hz : Kop m (0 : String → V6) = 0 := by
        have h := Kop_smul m 0 (0 : String → V6)
        rwa [zero_smul, zero_smul] at h
      exact hz
  | cons cf l ih =>
      have hsplit : (fun p => sumV6 ((cf :: l).map (fun cf => cf.2 • ds cf.1 p)))
          = (cf.2 • ds cf.1) + (fun p => sumV6 (l.map (fun cf => cf.2 • ds cf.1 p))) := rfl
      rw [hsplit, Kop_add, Kop_smul, ih]
      rfl

/-- C2: For every stable model and combination, the solved displacement
state of the combination is the factor-weighted sum of the solved
displacement states of its referenced load cases analyzed alone with unit
factors (exact linear superposition). -/
theorem displacement_superposition (m : FEModel3D) (hst : Stable m)
    (combo : LoadCombo) (d : String → V6) (hd : Solves m combo d)
    (ds : String → String → V6)
    (hds : ∀ cf ∈ combo.factors, Solves m (unitCombo cf.1) (ds cf.1)) :
    d = fun p => sumV6 (combo.factors.map (fun cf => cf.2 • ds cf.1 p)) := by
  apply solves_unique m hst combo d _ hd
  constructor
  · intro p hp
    apply sumV6_eq_zero
    intro v hv
    simp only [List.mem_map] at hv
    obtain ⟨cf, hcf, hve⟩ := hv
    rw [← hve, (hds cf hcf).1 p hp, smul_zero]
  · intro nd hnd k
    constructor
    · intro hf
      rw [V6.comp_sumV6, List.map_map]
      apply List.sum_eq_zero
      intro q hq
      simp only [List.mem_map, Function.comp] at hq
      obtain ⟨cf, hcf, hqe⟩ := hq
      rw [← hqe, V6.comp_smul, ((hds cf hcf).2 nd hnd k).1 hf, mul_zero]
    · intro hf
      unfold Resid
      rw [V6.comp_sub]
      rw [Kop_weighted m combo.factors ds]
      have hcF : comboF m combo nd.name
          = sumV6 (combo.factors.map (fun cf => cf.2 • caseF m cf.1 nd.name)) := rfl
      rw [hcF, V6.comp_sumV6, V6.comp_sumV6, List.map_map, List.map_map]
      have hcong : ∀ cf ∈ combo.factors,
          ((fun v => V6.comp v k) ∘ fun cf : String × ℚ => cf.2 • Kop m (ds cf.1) nd.name) cf
            = ((fun v => V6.comp v k) ∘ fun cf : String × ℚ => cf.2 • caseF m cf.1 nd.name) cf := by
        intro cf hcf
        simp only [Function.comp, V6.comp_smul]
        have hres := ((hds cf hcf).2 nd hnd k).2 hf
        unfold Resid at hres
        rw [V6.comp_sub] at hres
        have hun : (comboF m (unitCombo cf.1) nd.name).comp k
            = (caseF m cf.1 nd.name).comp k := by
          rw [comboF_unit]
        rw [hun] at hres
        have : (Kop m (ds cf.1) nd.name).comp k = (caseF m cf.1 nd.name).comp k := by
          linarith
        rw [this]
      rw [List.map_congr_left hcong, sub_self]

/-- Stability of the example model: the restrained system has trivial
kernel (the supports suppress every rigid-body mode). -/
lemma sb_stable : Stable simple_beam := by
  intro r hsupp hcond
  have hmem1 : (⟨"N1", 0, 0, 0⟩ : Node3D) ∈ simple_beam.nodes := by
    rw [simple_beam_nodes]; simp
  have hmem2 : (⟨"N2", 6, 0, 0⟩ : Node3D) ∈ simple_beam.nodes := by
    rw [simple_beam_nodes]; simp
  have hr10 := (hcond _ hmem1 ⟨0, by norm_num⟩).1 (by decide)
  have hr11 := (hcond _ hmem1 ⟨1, by norm_num⟩).1 (by decide)
  have hr12 := (hcond _ hmem1 ⟨2, by norm_num⟩).1 (by decide)
  have hr20 := (hcond _ hmem2 ⟨0, by norm_num⟩).1 (by decide)
  have hr21 := (hcond _ hmem2 ⟨1, by norm_num⟩).1 (by decide)
  have hr22 := (hcond _ hmem2 ⟨2, by norm_num⟩).1 (by decide)
  have hr23 := (hcond _ hmem2 ⟨3, by norm_num⟩).1 (by decide)
  have he13 := (hcond _ hmem1 ⟨3, by norm_num⟩).2 (by decide)
  have he14 := (hcond _ hmem1 ⟨4, by norm_num⟩).2 (by decide)
  have he15 := (hcond _ hmem1 ⟨5, by norm_num⟩).2 (by decide)
  have he24 := (hcond _ hmem2 ⟨4, by norm_num⟩).2 (by decide)
  have he25 := (hcond _ hmem2 ⟨5, by norm_num⟩).2 (by decide)
  simp only [V6.comp] at hr10 hr11 hr12 hr20 hr21 hr22 hr23
  norm_num [Kop, memberForce, findMaterial, simple_beam, emptyModel, add_node,
    add_material, add_member, def_support, add_member_dist_load,
    add_member_pt_load, add_load_combo, secOf, dOf, tAct, tActT, klAct,
    scatter, sumV6, V6.comp, M3.mulVec, M3.one, M3.transpose, memberM1,
    show ("N2" : String) ≠ "N1" from by decide,
    show ("N1" : String) ≠ "N2" from by decide,
    hr10, hr11, hr12, hr20, hr21, hr22, hr23] at he13 he14 he15 he24 he25
  funext p
  show r p = 0
  by_cases hp1 : p = "N1"
  · subst hp1
    apply V6.eq_of_comp
    intro k
    rw [V6.comp_zero]
    fin_cases k
    · exact hr10
    · exact hr11
    · exact hr12
    · show (r "N1").ang.x = 0
      linarith
    · show (r "N1").ang.y = 0
      linarith
    · show (r "N1").ang.z = 0
      linarith
  · by_cases hp2 : p = "N2"
    · subst hp2
      apply V6.eq_of_comp
      intro k
      rw [V6.comp_zero]
      fin_cases k
      · exact hr20
      · exact hr21
      · exact hr22
      · exact hr23
      · show (r "N2").ang.y = 0
        linarith
      · show (r "N2").ang.z = 0
        linarith
    · apply hsupp
      simp [nodeNames, simple_beam_nodes, hp1, hp2]

/-- Witness for C2 at the example model: combination "1.4D" against load
case "D" analyzed alone, with the exact solved states. -/
theorem displacement_superposition_witness :
    Stable simple_beam
    ∧ Solves simple_beam combo14D dSol14D
    ∧ (∀ cf ∈ combo14D.factors,
        Solves simple_beam (unitCombo cf.1) ((fun _ => dSolD) cf.1))
    ∧ dSol14D = fun p =>
        sumV6 (combo14D.factors.map (fun cf => cf.2 • (fun _ => dSolD) cf.1 p)) := by
  have hds : ∀ cf ∈ combo14D.factors,
      Solves simple_beam (unitCombo cf.1) ((fun _ => dSolD) cf.1) := by
    intro cf hcf
    have h1 : cf = ("D", 1.4) := by
      simpa [combo14D] using hcf
    subst h1
    exact sb_solves_D
  exact ⟨sb_stable, sb_solves_14D, hds,
    displacement_superposition simple_beam sb_stable combo14D dSol14D
      sb_solves_14D (fun _ => dSolD) hds⟩

/-- C5: Analysis is deterministic and idempotent: any two analysis passes
over the same unmodified model produce, for every defined combination,
identical displacement states and identical derived result sets
(reactions, member end forces, statics residuals). -/
theorem analysis_deterministic (m : FEModel3D)
    (r1 r2 : String → (String → V6))
    (h1 : Analyzes m r1) (h2 : Analyzes m r2) :
    ∀ combo ∈ m.load_combos,
      r1 combo.name = r2 combo.name
      ∧ resultOf m combo (r1 combo.name) = resultOf m combo (r2 combo.name) := by
  intro combo hc
  have he := solves_unique m h1.1 combo _ _ (h1.2 combo hc) (h2.2 combo hc)
  exact ⟨he, by rw [he]⟩

/-- The example model analyzes: it is stable and each of its three
combinations has its exact solved state. -/
lemma sb_analyzes : Analyzes simple_beam resSB := by
  refine ⟨sb_stable, ?_⟩
  intro combo hc
  have hl : simple_beam.load_combos = [combo14D, combo1216, combo1216S] := rfl
  rw [hl] at hc
  fin_cases hc
  · have h1 : resSB "1.4D" = dSol14D := by simp [resSB]
    show Solves simple_beam combo14D (resSB combo14D.name)
    have h2 : combo14D.name = "1.4D" := rfl
    rw [h2, h1]
    exact sb_solves_14D
  · have h1 : resSB "1.2D+1.6L" = dSol1216 := by simp [resSB]
    show Solves simple_beam combo1216 (resSB combo1216.name)
    have h2 : combo1216.name = "1.2D+1.6L" := rfl
    rw [h2, h1]
    exact sb_solves_1216
  · have h1 : resSB "1.2D+1.6L+0.5S" = dSol1216S := by simp [resSB]
    show Solves simple_beam combo1216S (resSB combo1216S.name)
    have h2 : combo1216S.name = "1.2D+1.6L+0.5S" := rfl
    rw [h2, h1]
    exact sb_solves_1216S

/-- Witness for C5: re-running the analysis of the example model yields
identical result sets for all three combinations. -/
theorem analysis_deterministic_witness :
    Analyzes simple_beam resSB
    ∧ ∀ combo ∈ simple_beam.load_combos,
        resSB combo.name = resSB combo.name
        ∧ resultOf simple_beam combo (resSB combo.name)
            = resultOf simple_beam combo (resSB combo.name) :=
  ⟨sb_analyzes,
    analysis_deterministic simple_beam resSB resSB sb_analyzes sb_analyzes⟩

/-- C4: A model whose restraints admit a rigid-body mode (a nonzero
displacement state vanishing at every restrained DOF and annihilated by the
global stiffness) cannot be factorized: analysis raises the instability
error of the boundary-condition partitioning/factorization stage, and no
analysis result exists. -/
theorem instability_on_rigid_mode (m : FEModel3D) (r : String → V6)
    (hnz : r ≠ fun _ => 0)
    (hsupp : ∀ p, p ∉ nodeNames m → r p = 0)
    (hzero : ∀ nd ∈ m.nodes, ∀ k : Fin 6,
      ((supportOf m nd.name).flag k = true → (r nd.name).comp k = 0)
      ∧ (Kop m r nd.name).comp k = 0) :
    raisesInstability m ∧ ∀ res, ¬ Analyzes m res := by
  have hns : ¬ Stable m := by
    intro hst
    exact hnz (hst r hsupp
      (fun nd hnd k => ⟨(hzero nd hnd k).1, fun _ => (hzero nd hnd k).2⟩))
  exact ⟨hns, fun res hA => hns hA.1⟩

/-- Witness for C4: the one-node model with no restraints (a pure
rigid-body translation in y is an unconstrained mode). -/
theorem instability_witness :
    raisesInstability oneNodeModel ∧ ∀ res, ¬ Analyzes oneNodeModel res := by
  apply instability_on_rigid_mode oneNodeModel
    (fun p => if p = "N1" then ⟨⟨0, 1, 0⟩, 0⟩ else 0)
  · intro h
    have h1 := congrFun h "N1"
    norm_num at h1
    have h2 := congrArg (fun v : V6 => v.lin.y) h1
    norm_num at h2
  · intro p hp
    have hne : p ≠ "N1" := by
      intro he
      subst he
      exact hp (by simp [nodeNames, oneNodeModel, add_node, emptyModel])
    simp [hne]
  · intro nd hnd k
    have hn : nd = ⟨"N1", 0, 0, 0⟩ := by
      simpa [oneNodeModel, add_node, emptyModel] using hnd
    subst hn
    constructor
    · intro hf
      have : (supportOf oneNodeModel "N1").flag k = false := by
        have hso : supportOf oneNodeModel "N1"
            = ⟨false, false, false, false, false, false⟩ := rfl
        rw [hso]
        fin_cases k <;> rfl
      rw [this] at hf
      cases hf
    · have hK : Kop oneNodeModel
          (fun p => if p = "N1" then ⟨⟨0, 1, 0⟩, 0⟩ else 0) "N1" = 0 := rfl
      rw [hK, V6.comp_zero]

/-- C7: For every simply supported beam of span L (pin plus roller, the
example script's support pattern) carrying a single concentrated transverse
load of magnitude P downward at midspan, any solved state reproduces
exactly the closed-form end reactions P/2 at both supports, the closed-form
midspan bending moment P*L/4, and P*L/4 bounds the whole moment diagram in
absolute value. -/
theorem midspan_point_load_closed_form (L P E G A Iy Iz J : ℚ)
    (hL : 0 < L) (hE : 0 < E) (hIz : 0 < Iz) (hP : 0 ≤ P)
    (d : String → V6) (hd : Solves (ssBeam L P E G A Iy Iz J) ssCombo d) :
    (reactions (ssBeam L P E G A Iy Iz J) ssCombo d "N1").lin.y = P / 2
    ∧ (reactions (ssBeam L P E G A Iy Iz J) ssCombo d "N2").lin.y = P / 2
    ∧ momentAt (ssBeam L P E G A Iy Iz J) (ssMember L A Iy Iz J) ssCombo d (L / 2)
        = P * L / 4
    ∧ ∀ x, 0 ≤ x → x ≤ L →
        |momentAt (ssBeam L P E G A Iy Iz J) (ssMember L A Iy Iz J) ssCombo d x|
          ≤ P * L / 4 := by
  have hnodes : (ssBeam L P E G A Iy Iz J).nodes
      = [⟨"N1", 0, 0, 0⟩, ⟨"N2", L, 0, 0⟩] := rfl
  have hmem1 : (⟨"N1", 0, 0, 0⟩ : Node3D) ∈ (ssBeam L P E G A Iy Iz J).nodes := by
    rw [hnodes]; simp
  have hmem2 : (⟨"N2", L, 0, 0⟩ : Node3D) ∈ (ssBeam L P E G A Iy Iz J).nodes := by
    rw [hnodes]; simp
  have hs1 : supportOf (ssBeam L P E G A Iy Iz J) "N1"
      = ⟨true, true, true, false, false, false⟩ := rfl
  have hs2 : supportOf (ssBeam L P E G A Iy Iz J) "N2"
      = ⟨true, true, true, true, false, false⟩ := rfl
  have hr11 := (hd.2 _ hmem1 ⟨1, by norm_num⟩).1 (by rw [hs1]; rfl)
  have hr21 := (hd.2 _ hmem2 ⟨1, by norm_num⟩).1 (by rw [hs2]; rfl)
  have he15 := (hd.2 _ hmem1 ⟨5, by norm_num⟩).2 (by rw [hs1]; rfl)
  have he25 := (hd.2 _ hmem2 ⟨5, by norm_num⟩).2 (by rw [hs2]; rfl)
  simp only [V6.comp] at hr11 hr21
  norm_num [Resid, Kop, comboF, caseF, findMember, findMaterial, ssBeam,
    emptyModel, add_node, add_material, add_member, def_support,
    add_member_pt_load, add_load_combo, memberForce,
    secOf, dOf, tAct, tActT, klAct, scatter, sumV6, loadVec, eqLocalLoad,
    eqLocalPt, wPoly, shapeF1, shapeM1, shapeF2, shapeM2, pmul,
    padd, pscale, pdefInt, pint, pdivFrom, peval, V6.comp,
    M3.mulVec, M3.one, M3.transpose, ssMember, ssCombo, unitCombo, List.filter,
    show ("N2" : String) ≠ "N1" from by decide,
    show ("N1" : String) ≠ "N2" from by decide,
    show ("Fy" : String) ≠ "Fx" from by decide,
    hr11, hr21] at he15 he25
  field_simp [hL.ne'] at he15 he25
  have hEIzpos : 0 < E * Iz := mul_pos hE hIz
  have hEIz : E * Iz ≠ 0 := hEIzpos.ne'
  have hL6 : L ^ 6 ≠ 0 := pow_ne_zero 6 hL.ne'
  have h16pos : (0 : ℚ) < 16 * (E * Iz) := by linarith
  have hsumG : (((d "N1").ang.z + (d "N2").ang.z) * (E * Iz)) * (48 * L ^ 6) = 0 := by
    linear_combination he15 + L ^ 2 * he25
  have hsum : (d "N1").ang.z + (d "N2").ang.z = 0 := by
    rcases mul_eq_zero.mp hsumG with h | h
    · rcases mul_eq_zero.mp h with h2 | h2
      · exact h2
      · exact absurd h2 hEIz
    · exact absurd h (mul_ne_zero (by norm_num) hL6)
  have ht1G : ((d "N1").ang.z * (16 * (E * Iz)) + P * L ^ 2) * L ^ 6 = 0 := by
    linear_combination (2 / 3 : ℚ) * he15 - (L ^ 2 / 3) * he25
  have h0 : (d "N1").ang.z * (16 * (E * Iz)) + P * L ^ 2 = 0 := by
    rcases mul_eq_zero.mp ht1G with h | h
    · exact h
    · exact absurd h hL6
  have ht1 : (d "N1").ang.z = -(P * L ^ 2) / (16 * (E * Iz)) := by
    rw [eq_div_iff h16pos.ne']
    linarith
  have ht2 : (d "N2").ang.z = P * L ^ 2 / (16 * (E * Iz)) := by
    rw [eq_div_iff h16pos.ne']
    have h2 : (d "N2").ang.z = -(d "N1").ang.z := by linarith
    rw [h2]
    linear_combination -h0
  refine ⟨?_, ?_, ?_, ?_⟩
  · norm_num [reactions, selectR, supportOf, Resid, Kop, comboF, caseF,
      findMember, findMaterial, ssBeam, emptyModel, add_node, add_material,
      add_member, def_support, add_member_pt_load, add_load_combo,
      memberForce, secOf, dOf, tAct, tActT, klAct, scatter, sumV6, loadVec,
      eqLocalLoad, eqLocalPt, wPoly, shapeF1, shapeM1, shapeF2, shapeM2,
      pmul, padd, pscale, pdefInt, pint, pdivFrom, peval, V6.comp,
      M3.mulVec, M3.one, M3.transpose, ssMember, ssCombo, List.filter,
      show ("N2" : String) ≠ "N1" from by decide,
      show ("N1" : String) ≠ "N2" from by decide,
      show ("Fy" : String) ≠ "Fx" from by decide,
      hr11, hr21, ht1, ht2]
    field_simp
    ring
  · norm_num [reactions, selectR, supportOf, Resid, Kop, comboF, caseF,
      findMember, findMaterial, ssBeam, emptyModel, add_node, add_material,
      add_member, def_support, add_member_pt_load, add_load_combo,
      memberForce, secOf, dOf, tAct, tActT, klAct, scatter, sumV6, loadVec,
      eqLocalLoad, eqLocalPt, wPoly, shapeF1, shapeM1, shapeF2, shapeM2,
      pmul, padd, pscale, pdefInt, pint, pdivFrom, peval, V6.comp,
      M3.mulVec, M3.one, M3.transpose, ssMember, ssCombo, List.filter,
      show ("N2" : String) ≠ "N1" from by decide,
      show ("N1" : String) ≠ "N2" from by decide,
      show ("Fy" : String) ≠ "Fx" from by decide,
      hr11, hr21, ht1, ht2]
    field_simp
    ring
  · norm_num [momentAt, memberLocalForces, memberLocalEq, factorOf,
      momentContribAt, sumV12, findMember, findMaterial, ssBeam, emptyModel,
      add_node, add_material, add_member, def_support, add_member_pt_load,
      add_load_combo, secOf, dOf, tAct, tActT, klAct, scatter, sumV6,
      eqLocalLoad, eqLocalPt, wPoly, shapeF1, shapeM1, shapeF2, shapeM2,
      pmul, padd, pscale, pdefInt, pint, pdivFrom, peval, V6.comp,
      M3.mulVec, M3.one, M3.transpose, ssMember, ssCombo, List.filter,
      show ("N2" : String) ≠ "N1" from by decide,
      show ("N1" : String) ≠ "N2" from by decide,
      show ("Fy" : String) ≠ "Fx" from by decide,
      hr11, hr21, ht1, ht2]
    field_simp
    ring
  · intro x hx0 hxL
    by_cases hx : L / 2 ≤ x
    · have hMx : momentAt (ssBeam L P E G A Iy Iz J) (ssMember L A Iy Iz J)
          ssCombo d x = P / 2 * x - P * (x - L / 2) := by
        norm_num [momentAt, memberLocalForces, memberLocalEq, factorOf,
          momentContribAt, sumV12, findMember, findMaterial, ssBeam, emptyModel,
          add_node, add_material, add_member, def_support, add_member_pt_load,
          add_load_combo, secOf, dOf, tAct, tActT, klAct, scatter, sumV6,
          eqLocalLoad, eqLocalPt, wPoly, shapeF1, shapeM1, shapeF2, shapeM2,
          pmul, padd, pscale, pdefInt, pint, pdivFrom, peval, V6.comp,
          M3.mulVec, M3.one, M3.transpose, ssMember, ssCombo, List.filter,
          show ("N2" : String) ≠ "N1" from by decide,
          show ("N1" : String) ≠ "N2" from by decide,
          show ("Fy" : String) ≠ "Fx" from by decide,
          hr11, hr21, ht1, ht2, hx]
        field_simp
        ring
      rw [hMx, abs_le]
      constructor <;> nlinarith [mul_nonneg hP hx0, mul_nonneg hP (sub_nonneg.mpr hx),
        mul_nonneg hP (sub_nonneg.mpr hxL), hL]
    · push_neg at hx
      have hMx : momentAt (ssBeam L P E G A Iy Iz J) (ssMember L A Iy Iz J)
          ssCombo d x = P / 2 * x := by
        norm_num [momentAt, memberLocalForces, memberLocalEq, factorOf,
          momentContribAt, sumV12, findMember, findMaterial, ssBeam, emptyModel,
          add_node, add_material, add_member, def_support, add_member_pt_load,
          add_load_combo, secOf, dOf, tAct, tActT, klAct, scatter, sumV6,
          eqLocalLoad, eqLocalPt, wPoly, shapeF1, shapeM1, shapeF2, shapeM2,
          pmul, padd, pscale, pdefInt, pint, pdivFrom, peval, V6.comp,
          M3.mulVec, M3.one, M3.transpose, ssMember, ssCombo, List.filter,
          show ("N2" : String) ≠ "N1" from by decide,
          show ("N1" : String) ≠ "N2" from by decide,
          show ("Fy" : String) ≠ "Fx" from by decide,
          hr11, hr21, ht1, ht2, hx.not_le]
        field_simp
        ring
      rw [hMx, abs_le]
      constructor <;> nlinarith [mul_nonneg hP hx0, mul_nonneg hP (sub_nonneg.mpr hxL),
        mul_nonneg hP (sub_nonneg.mpr hx.le), hL]

lemma ssWit_resid_N1 :
    Resid (ssBeam 4 8 1 1 1 1 1 1) ssCombo (sbDisp (-8) 8) "N1"
      = ⟨⟨0, 4, 0⟩, 0⟩ := by
  norm_num [Resid, Kop, comboF, caseF, findMember, findMaterial, ssBeam,
    emptyModel, add_node, add_material, add_member, def_support,
    add_member_pt_load, add_load_combo, memberForce,
    secOf, dOf, tAct, tActT, klAct, scatter, sumV6, loadVec, eqLocalLoad,
    eqLocalPt, wPoly, shapeF1, shapeM1, shapeF2, shapeM2, pmul,
    padd, pscale, pdefInt, pint, pdivFrom, peval, sbDisp, V6.comp,
    M3.mulVec, M3.one, M3.transpose, ssMember, ssCombo, unitCombo, List.filter,
    show ("N2" : String) ≠ "N1" from by decide,
    show ("N1" : String) ≠ "N2" from by decide,
    show ("Fy" : String) ≠ "Fx" from by decide]
  all_goals (ext <;> norm_num)

lemma ssWit_resid_N2 :
    Resid (ssBeam 4 8 1 1 1 1 1 1) ssCombo (sbDisp (-8) 8) "N2"
      = ⟨⟨0, 4, 0⟩, 0⟩ := by
  norm_num [Resid, Kop, comboF, caseF, findMember, findMaterial, ssBeam,
    emptyModel, add_node, add_material, add_member, def_support,
    add_member_pt_load, add_load_combo, memberForce,
    secOf, dOf, tAct, tActT, klAct, scatter, sumV6, loadVec, eqLocalLoad,
    eqLocalPt, wPoly, shapeF1, shapeM1, shapeF2, shapeM2, pmul,
    padd, pscale, pdefInt, pint, pdivFrom, peval, sbDisp, V6.comp,
    M3.mulVec, M3.one, M3.transpose, ssMember, ssCombo, unitCombo, List.filter,
    show ("N2" : String) ≠ "N1" from by decide,
    show ("N1" : String) ≠ "N2" from by decide,
    show ("Fy" : String) ≠ "Fx" from by decide]
  all_goals (ext <;> norm_num)

lemma ssWit_solves : Solves (ssBeam 4 8 1 1 1 1 1 1) ssCombo (sbDisp (-8) 8) := by
  constructor
  · intro p hp
    have hn : nodeNames (ssBeam 4 8 1 1 1 1 1 1) = ["N1", "N2"] := rfl
    rw [hn] at hp
    simp only [List.mem_cons, List.not_mem_nil, or_false, not_or] at hp
    simp [sbDisp, hp.1, hp.2]
  · intro nd hnd
    have hn2 : (ssBeam 4 8 1 1 1 1 1 1).nodes
        = [⟨"N1", 0, 0, 0⟩, ⟨"N2", 4, 0, 0⟩] := rfl
    rw [hn2] at hnd
    fin_cases hnd <;> intro k <;> fin_cases k <;>
      refine ⟨fun hf => ?_, fun hf => ?_⟩ <;>
      first
        | rfl
        | (show (Resid (ssBeam 4 8 1 1 1 1 1 1) ssCombo (sbDisp (-8) 8) "N1").comp _ = 0
           rw [ssWit_resid_N1]; rfl)
        | (show (Resid (ssBeam 4 8 1 1 1 1 1 1) ssCombo (sbDisp (-8) 8) "N2").comp _ = 0
           rw [ssWit_resid_N2]; rfl)
        | (simp [show supportOf (ssBeam 4 8 1 1 1 1 1 1) "N1"
                   = ⟨true, true, true, false, false, false⟩ from rfl,
                 show supportOf (ssBeam 4 8 1 1 1 1 1 1) "N2"
                   = ⟨true, true, true, true, false, false⟩ from rfl,
                 Support6.flag] at hf)

/-- Witness for C7: span 4, midspan load 8, unit material and section. -/
theorem midspan_point_load_closed_form_witness :
    Solves (ssBeam 4 8 1 1 1 1 1 1) ssCombo (sbDisp (-8) 8)
    ∧ ((reactions (ssBeam 4 8 1 1 1 1 1 1) ssCombo (sbDisp (-8) 8) "N1").lin.y
          = 8 / 2
      ∧ (reactions (ssBeam 4 8 1 1 1 1 1 1) ssCombo (sbDisp (-8) 8) "N2").lin.y
          = 8 / 2
      ∧ momentAt (ssBeam 4 8 1 1 1 1 1 1) (ssMember 4 1 1 1 1) ssCombo
          (sbDisp (-8) 8) (4 / 2) = 8 * 4 / 4
      ∧ ∀ x, 0 ≤ x → x ≤ 4 →
          |momentAt (ssBeam 4 8 1 1 1 1 1 1) (ssMember 4 1 1 1 1) ssCombo
            (sbDisp (-8) 8) x| ≤ 8 * 4 / 4) :=
  ⟨ssWit_solves,
    midspan_point_load_closed_form 4 8 1 1 1 1 1 1 (by norm_num) (by norm_num)
      (by norm_num) (by norm_num) (sbDisp (-8) 8) ssWit_solves⟩

/-- C6: For the concrete model of src/example.py under combination
"1.2D+1.6L", any solved state yields vertical reactions summing to 188,
which balances 1.2 times the total case-D load (-190, the uniform load plus
the midspan dead point load) plus 1.6 times the total case-L load (25), and
the moment diagram at midspan (x = 3) equals the statically superposed
value built from the recovered end reaction and the factored applied loads,
namely 150. -/
theorem example_beam_combo_results (d : String → V6)
    (hd : Solves simple_beam combo1216 d) :
    totalCaseFy simple_beam "D" = -190
    ∧ totalCaseFy simple_beam "L" = 25
    ∧ (reactions simple_beam combo1216 d "N1").lin.y
        + (reactions simple_beam combo1216 d "N2").lin.y
      = -(1.2 * totalCaseFy simple_beam "D" + 1.6 * totalCaseFy simple_beam "L")
    ∧ (reactions simple_beam combo1216 d "N1").lin.y
        + (reactions simple_beam combo1216 d "N2").lin.y = 188
    ∧ momentAt simple_beam memberM1 combo1216 d 3
      = (reactions simple_beam combo1216 d "N1").lin.y * 3
        + (1.2 * (-30)) * 3 ^ 2 / 2 + (1.6 * 45) * (3 - 1.5)
        + (1.2 * (-10)) * (3 - 3)
    ∧ momentAt simple_beam memberM1 combo1216 d 3 = 150 := by
  have hmem1 : (⟨"N1", 0, 0, 0⟩ : Node3D) ∈ simple_beam.nodes := by
    rw [simple_beam_nodes]; simp
  have hmem2 : (⟨"N2", 6, 0, 0⟩ : Node3D) ∈ simple_beam.nodes := by
    rw [simple_beam_nodes]; simp
  have hs1 : supportOf simple_beam "N1"
      = ⟨true, true, true, false, false, false⟩ := rfl
  have hs2 : supportOf simple_beam "N2"
      = ⟨true, true, true, true, false, false⟩ := rfl
  have hr11 := (hd.2 _ hmem1 ⟨1, by norm_num⟩).1 (by rw [hs1]; rfl)
  have hr21 := (hd.2 _ hmem2 ⟨1, by norm_num⟩).1 (by rw [hs2]; rfl)
  have he15 := (hd.2 _ hmem1 ⟨5, by norm_num⟩).2 (by rw [hs1]; rfl)
  have he25 := (hd.2 _ hmem2 ⟨5, by norm_num⟩).2 (by rw [hs2]; rfl)
  simp only [V6.comp] at hr11 hr21
  norm_num [Resid, Kop, comboF, caseF, findMember, findMaterial, simple_beam,
    emptyModel, add_node, add_material, add_member, def_support,
    add_member_dist_load, add_member_pt_load, add_load_combo, memberForce,
    secOf, dOf, tAct, tActT, klAct, scatter, sumV6, loadVec, eqLocalLoad,
    eqLocalPt, eqLocalDist, wPoly, shapeF1, shapeM1, shapeF2, shapeM2, pmul,
    padd, pscale, pdefInt, pint, pdivFrom, peval, V6.comp,
    M3.mulVec, M3.one, M3.transpose, memberM1, combo1216, List.filter,
    show ("N2" : String) ≠ "N1" from by decide,
    show ("N1" : String) ≠ "N2" from by decide,
    show ("Fy" : String) ≠ "Fx" from by decide,
    hr11, hr21] at he15 he25
  have ht1 : (d "N1").ang.z = -1695 / 224 := by linarith
  have ht2 : (d "N2").ang.z = 2085 / 224 := by linarith
  have hTD : totalCaseFy simple_beam "D" = -190 := by
    norm_num [totalCaseFy, simple_beam, emptyModel, add_node, add_material,
      add_member, def_support, add_member_dist_load, add_member_pt_load,
      add_load_combo, wPoly, pdefInt, pint, pdivFrom, peval, List.filter,
      show (("L" : String) == "D") = false from by decide,
      show (("D" : String) == "D") = true from by decide]
  have hTL : totalCaseFy simple_beam "L" = 25 := by
    norm_num [totalCaseFy, simple_beam, emptyModel, add_node, add_material,
      add_member, def_support, add_member_dist_load, add_member_pt_load,
      add_load_combo, wPoly, pdefInt, pint, pdivFrom, peval, List.filter,
      show (("D" : String) == "L") = false from by decide,
      show (("L" : String) == "L") = true from by decide]
  have hcF1 : comboF simple_beam combo1216 "N1"
      = ⟨⟨0, -233 / 4, 0⟩, ⟨0, 0, -261 / 4⟩⟩ := by
    norm_num [comboF, combo1216, sumV6, caseF_D_N1, caseF_L_N1]
    all_goals (ext <;> norm_num)
  have hcF2 : comboF simple_beam combo1216 "N2"
      = ⟨⟨0, -519 / 4, 0⟩, ⟨0, 0, 495 / 4⟩⟩ := by
    norm_num [comboF, combo1216, sumV6, caseF_D_N2, caseF_L_N2]
    all_goals (ext <;> norm_num)
  have hR1 : (reactions simple_beam combo1216 d "N1").lin.y = 68 := by
    have hu : reactions simple_beam combo1216 d "N1"
        = selectR (supportOf simple_beam "N1")
            (Kop simple_beam d "N1" - comboF simple_beam combo1216 "N1") := rfl
    rw [hu, hcF1, hs1]
    norm_num [selectR, Kop, memberForce, findMaterial, simple_beam,
      emptyModel, add_node, add_material, add_member, def_support,
      add_member_dist_load, add_member_pt_load, add_load_combo, secOf, dOf,
      tAct, tActT, klAct, scatter, sumV6, M3.mulVec, M3.one, M3.transpose,
      memberM1,
      show ("N2" : String) ≠ "N1" from by decide,
      show ("N1" : String) ≠ "N2" from by decide,
      hr11, hr21, ht1, ht2]
  have hR2 : (reactions simple_beam combo1216 d "N2").lin.y = 120 := by
    have hu : reactions simple_beam combo1216 d "N2"
        = selectR (supportOf simple_beam "N2")
            (Kop simple_beam d "N2" - comboF simple_beam combo1216 "N2") := rfl
    rw [hu, hcF2, hs2]
    norm_num [selectR, Kop, memberForce, findMaterial, simple_beam,
      emptyModel, add_node, add_material, add_member, def_support,
      add_member_dist_load, add_member_pt_load, add_load_combo, secOf, dOf,
      tAct, tActT, klAct, scatter, sumV6, M3.mulVec, M3.one, M3.transpose,
      memberM1,
      show ("N2" : String) ≠ "N1" from by decide,
      show ("N1" : String) ≠ "N2" from by decide,
      hr11, hr21, ht1, ht2]
  have hM : momentAt simple_beam memberM1 combo1216 d 3 = 150 := by
    norm_num [momentAt, memberLocalForces, memberLocalEq, factorOf,
      momentContribAt, sumV12, findMaterial, simple_beam, emptyModel,
      add_node, add_material, add_member, def_support, add_member_dist_load,
      add_member_pt_load, add_load_combo, secOf, dOf, tAct, tActT, klAct,
      eqLocalLoad, eqLocalPt, eqLocalDist, wPoly, shapeF1, shapeM1, shapeF2,
      shapeM2, pmul, padd, pscale, pdefInt, pint, pdivFrom, peval,
      M3.mulVec, M3.one, M3.transpose, memberM1, combo1216, List.filter,
      show ("N2" : String) ≠ "N1" from by decide,
      show ("N1" : String) ≠ "N2" from by decide,
      show ("Fy" : String) ≠ "Fx" from by decide,
      show (("L" : String) == "D") = false from by decide,
      show (("D" : String) == "D") = true from by decide,
      show (("D" : String) == "L") = false from by decide,
      show (("L" : String) == "L") = true from by decide,
      show (("M1" : String) == "M1") = true from by decide,
      hr11, hr21, ht1, ht2]
  refine ⟨hTD, hTL, ?_, ?_, ?_, hM⟩
  · rw [hR1, hR2, hTD, hTL]
    norm_num
  · rw [hR1, hR2]
    norm_num
  · rw [hM, hR1]
    norm_num

/-- Witness for C6 at the exact solved state of the example model. -/
theorem example_beam_combo_results_witness :
    Solves simple_beam combo1216 dSol1216
    ∧ (totalCaseFy simple_beam "D" = -190
      ∧ totalCaseFy simple_beam "L" = 25
      ∧ (reactions simple_beam combo1216 dSol1216 "N1").lin.y
          + (reactions simple_beam combo1216 dSol1216 "N2").lin.y
        = -(1.2 * totalCaseFy simple_beam "D" + 1.6 * totalCaseFy simple_beam "L")
      ∧ (reactions simple_beam combo1216 dSol1216 "N1").lin.y
          + (reactions simple_beam combo1216 dSol1216 "N2").lin.y = 188
      ∧ momentAt simple_beam memberM1 combo1216 dSol1216 3
        = (reactions simple_beam combo1216 dSol1216 "N1").lin.y * 3
          + (1.2 * (-30)) * 3 ^ 2 / 2 + (1.6 * 45) * (3 - 1.5)
          + (1.2 * (-10)) * (3 - 3)
      ∧ momentAt simple_beam memberM1 combo1216 dSol1216 3 = 150) :=
  ⟨sb_solves_1216, example_beam_combo_results dSol1216 sb_solves_1216⟩

/-- C3 counterexample: src/example.py line 45 registers the combination
"1.2D+1.6L+0.5S" whose factors reference case "S", although no load of case
"S" is ever defined; registration succeeds (the combination is in the
registered state), no validation error interrupts the script, and the
combination even analyzes, with case "S" contributing a zero load vector. -/
theorem combo_with_undefined_case_accepted :
    (∀ l ∈ simple_beam.loads, l.case ≠ "S")
    ∧ combo1216S ∈ simple_beam.load_combos
    ∧ (∀ p, caseF simple_beam "S" p = 0)
    ∧ Solves simple_beam combo1216S dSol1216S := by
  refine ⟨?_, ?_, ?_, sb_solves_1216S⟩
  · intro l hl
    have hld : simple_beam.loads
        = [⟨"M1", "D", .dist "Fy" (-30) (-30) 0 6⟩,
           ⟨"M1", "D", .pt "Fy" (-10) 3⟩,
           ⟨"M1", "L", .pt "Fy" 45 1.5⟩,
           ⟨"M1", "L", .pt "Fy" (-20) 4.5⟩] := rfl
    rw [hld] at hl
    fin_cases hl <;> decide
  · have hlc : simple_beam.load_combos = [combo14D, combo1216, combo1216S] := rfl
    rw [hlc]
    simp
  · intro p
    have hf : simple_beam.loads.filter (fun l => l.case == "S") = [] := rfl
    simp [caseF, hf]

/-- C3 amended: registration of a load combination always succeeds,
appending it to the registered combinations and leaving the rest of the
model state unchanged, and a referenced case under which no load was
registered contributes a zero load vector. -/
theorem add_load_combo_total (m : FEModel3D) (name : String)
    (factors : List (String × ℚ)) :
    (add_load_combo m name factors).load_combos
        = m.load_combos ++ [⟨name, factors⟩]
    ∧ (add_load_combo m name factors).nodes = m.nodes
    ∧ (add_load_combo m name factors).members = m.members
    ∧ (add_load_combo m name factors).supports = m.supports
    ∧ (add_load_combo m name factors).loads = m.loads
    ∧ ∀ c, (∀ l ∈ m.loads, l.case ≠ c) → ∀ p, caseF m c p = 0 := by
  refine ⟨rfl, rfl, rfl, rfl, rfl, ?_⟩
  intro c hc p
  have hf : m.loads.filter (fun l => l.case == c) = [] := by
    rw [List.filter_eq_nil]
    intro l hl
    simp [hc l hl]
  simp [caseF, hf]

/-- Witness for the amended C3, at the example model and the loadless case
name "S". -/
theorem add_load_combo_total_witness :
    (add_load_combo simple_beam "EXTRA" [("S", 1)]).load_combos
        = simple_beam.load_combos ++ [⟨"EXTRA", [("S", 1)]⟩]
    ∧ caseF simple_beam "S" "N1" = 0 := by
  constructor
  · exact (add_load_combo_total simple_beam "EXTRA" [("S", 1)]).1
  · apply (add_load_combo_total simple_beam "EXTRA" [("S", 1)]).2.2.2.2.2 "S"
    intro l hl
    have hld : simple_beam.loads
        = [⟨"M1", "D", .dist "Fy" (-30) (-30) 0 6⟩,
           ⟨"M1", "D", .pt "Fy" (-10) 3⟩,
           ⟨"M1", "L", .pt "Fy" 45 1.5⟩,
           ⟨"M1", "L", .pt "Fy" (-20) 4.5⟩] := rfl
    rw [hld] at hl
    fin_cases hl <;> decide
